import Mathlib

/-!
Verification of the QuickNode terraform provider's hard core: the attribute
codec, the tag reconciler, the stream update pause/activate bracket, the
endpoint create/update orchestration, and the rate-governed retrying HTTP
client.  Each definition is a shallow embedding of a function from the
repository's Go source; theorems settle the frozen claims about them.
-/

/-- Outcome of one remote HTTP call: a transport error (the Go `err != nil`
branch), or a response with an HTTP status code. -/
inductive CallRes where
  | err (e : String)
  | status (n : Nat)
deriving DecidableEq, Repr

/-- Decides whether a call result is a success for the given list of accepted
status codes (mirrors checks such as `resp.StatusCode() != 200`). -/
def callOk (r : CallRes) (oks : List Nat) : Bool :=
  match r with
  | .err _ => false
  | .status n => oks.contains n

/-!
Attribute codec data model.  `DestObj` is the Terraform `destination_attributes`
single-nested object of `stream_resource.go` (schema lines 228-357): each of the
24 schema attributes is one field, `none` standing for a Terraform null value.
Headers maps are kept as association lists of string pairs.
-/

/-- Terraform destination_attributes object: one field per schema attribute of
the `destination_attributes` nested block, `none` = Terraform null. -/
structure DestObj where
  url : Option String := none
  compression : Option String := none
  headers : Option (List (String × String)) := none
  max_retry : Option Int := none
  retry_interval_sec : Option Int := none
  post_timeout_sec : Option Int := none
  security_token : Option String := none
  version : Option String := none
  access_key : Option String := none
  secret_key : Option String := none
  bucket : Option String := none
  region : Option String := none
  endpoint : Option String := none
  object_prefix : Option String := none
  use_ssl : Option Bool := none
  file_compression : Option String := none
  file_type : Option String := none
  username : Option String := none
  password : Option String := none
  host : Option String := none
  port : Option Int := none
  database : Option String := none
  table_name : Option String := none
  sslmode : Option String := none
deriving DecidableEq, Repr

/-- Dynamically typed Go value as stored in the `map[string]interface{}`
produced by `convertDestinationAttributes` (stream_resource.go 1258-1284). -/
inductive GoValue where
  | str (s : String)
  | int (n : Int)
  | bool (b : Bool)
  | map (m : List (String × String))
deriving DecidableEq, Repr

/-- Lookup of a key in a Go-style string-keyed map modelled as an association
list (first binding wins; the maps we build have unique keys). -/
def lookupGo : List (String × GoValue) → String → Option GoValue
  | [], _ => none
  | (k, v) :: rest, key => if k = key then some v else lookupGo rest key

/-- Embedding of `convertDestinationAttributes` (stream_resource.go 1258-1284):
every schema attribute becomes a map entry; Terraform nulls collapse to Go zero
values exactly as `ValueString`/`ValueInt64`/`ValueBool`/`Elements` do on null
values ("" / 0 / false / empty map). -/
def convertDestinationAttributes (o : DestObj) : List (String × GoValue) :=
  [ ("url", .str (o.url.getD "")),
    ("compression", .str (o.compression.getD "")),
    ("headers", .map (o.headers.getD [])),
    ("max_retry", .int (o.max_retry.getD 0)),
    ("retry_interval_sec", .int (o.retry_interval_sec.getD 0)),
    ("post_timeout_sec", .int (o.post_timeout_sec.getD 0)),
    ("security_token", .str (o.security_token.getD "")),
    ("version", .str (o.version.getD "")),
    ("access_key", .str (o.access_key.getD "")),
    ("secret_key", .str (o.secret_key.getD "")),
    ("bucket", .str (o.bucket.getD "")),
    ("region", .str (o.region.getD "")),
    ("endpoint", .str (o.endpoint.getD "")),
    ("object_prefix", .str (o.object_prefix.getD "")),
    ("use_ssl", .bool (o.use_ssl.getD false)),
    ("file_compression", .str (o.file_compression.getD "")),
    ("file_type", .str (o.file_type.getD "")),
    ("username", .str (o.username.getD "")),
    ("password", .str (o.password.getD "")),
    ("host", .str (o.host.getD "")),
    ("port", .int (o.port.getD 0)),
    ("database", .str (o.database.getD "")),
    ("table_name", .str (o.table_name.getD "")),
    ("sslmode", .str (o.sslmode.getD "")) ]

/-- Go type assertion `destAttrs[k].(string)`: succeeds iff the key is present
and holds a string, otherwise the caller reports "k must be a string". -/
def asString (k : String) (m : List (String × GoValue)) : Except String String :=
  match lookupGo m k with
  | some (.str s) => .ok s
  | _ => .error (k ++ " must be a string")

/-- Go type assertion `destAttrs[k].(int64)`. -/
def asInt (k : String) (m : List (String × GoValue)) : Except String Int :=
  match lookupGo m k with
  | some (.int n) => .ok n
  | _ => .error (k ++ " must be an integer")

/-- Go type assertion `destAttrs[k].(bool)`. -/
def asBool (k : String) (m : List (String × GoValue)) : Except String Bool :=
  match lookupGo m k with
  | some (.bool b) => .ok b
  | _ => .error (k ++ " must be a boolean")

/-- Go type assertion `destAttrs[k].(map[string]interface{})`. -/
def asMap (k : String) (m : List (String × GoValue)) :
    Except String (List (String × String)) :=
  match lookupGo m k with
  | some (.map hs) => .ok hs
  | _ => .error (k ++ " must be a map")

/-- Go's `float32(int64)` conversion used by the attribute getters.  It is
exact for every integer of magnitude at most 2^24, which covers all values
admitted by the schema validators (max_retry <= 100, retry/post timeouts
<= 3600, port <= 65535); we embed it as the exact cast into the rationals. -/
def goFloat32OfInt (n : Int) : ℚ := (n : ℚ)

/-- Wire shape `streams.WebhookAttributes`; float32 fields as rationals. -/
structure WebhookAttributes where
  wurl : String
  wcompression : String
  wheaders : List (String × String)
  wmaxRetry : ℚ
  wpostTimeoutSec : ℚ
  wretryIntervalSec : ℚ
  wsecurityToken : String
deriving DecidableEq, Repr

/-- Wire shape `streams.S3Attributes`. -/
structure S3Attributes where
  sendpoint : String
  saccessKey : String
  ssecretKey : String
  sbucket : String
  sobjectPrefix : String
  sfileCompression : String
  sfileType : String
  smaxRetry : ℚ
  sretryIntervalSec : ℚ
  suseSsl : Bool
deriving DecidableEq, Repr

/-- Wire shape `streams.PostgresAttributes`. -/
structure PostgresAttributes where
  pusername : String
  ppassword : String
  phost : String
  pport : ℚ
  pdatabase : String
  paccessKey : String
  psslmode : String
  ptableName : String
  pmaxRetry : ℚ
  pretryIntervalSec : ℚ
deriving DecidableEq, Repr

/-- Embedding of `getWebhookAttributes` (stream_resource.go 363-398): the six
type assertions in source order, then the struct literal — note the source
hardcodes `SecurityToken: ""`, discarding any incoming security_token. -/
def getWebhookAttributes (m : List (String × GoValue)) :
    Except String WebhookAttributes := do
  let url ← asString "url" m
  let compression ← asString "compression" m
  let headers ← asMap "headers" m
  let maxRetry ← asInt "max_retry" m
  let postTimeoutSec ← asInt "post_timeout_sec" m
  let retryIntervalSec ← asInt "retry_interval_sec" m
  return { wurl := url, wcompression := compression, wheaders := headers,
           wmaxRetry := goFloat32OfInt maxRetry,
           wpostTimeoutSec := goFloat32OfInt postTimeoutSec,
           wretryIntervalSec := goFloat32OfInt retryIntervalSec,
           wsecurityToken := "" }

/-- Embedding of `getS3Attributes` (stream_resource.go 401-455). -/
def getS3Attributes (m : List (String × GoValue)) :
    Except String S3Attributes := do
  let endpoint ← asString "endpoint" m
  let accessKey ← asString "access_key" m
  let secretKey ← asString "secret_key" m
  let bucket ← asString "bucket" m
  let objectPrefix ← asString "object_prefix" m
  let fileCompression ← asString "file_compression" m
  let fileType ← asString "file_type" m
  let maxRetry ← asInt "max_retry" m
  let retryIntervalSec ← asInt "retry_interval_sec" m
  let useSsl ← asBool "use_ssl" m
  return { sendpoint := endpoint, saccessKey := accessKey,
           ssecretKey := secretKey, sbucket := bucket,
           sobjectPrefix := objectPrefix, sfileCompression := fileCompression,
           sfileType := fileType, smaxRetry := goFloat32OfInt maxRetry,
           sretryIntervalSec := goFloat32OfInt retryIntervalSec,
           suseSsl := useSsl }

/-- Embedding of `getPostgresAttributes` (stream_resource.go 458-512). -/
def getPostgresAttributes (m : List (String × GoValue)) :
    Except String PostgresAttributes := do
  let username ← asString "username" m
  let password ← asString "password" m
  let host ← asString "host" m
  let port ← asInt "port" m
  let database ← asString "database" m
  let accessKey ← asString "access_key" m
  let sslmode ← asString "sslmode" m
  let tableName ← asString "table_name" m
  let maxRetry ← asInt "max_retry" m
  let retryIntervalSec ← asInt "retry_interval_sec" m
  return { pusername := username, ppassword := password, phost := host,
           pport := goFloat32OfInt port, pdatabase := database,
           paccessKey := accessKey, psslmode := sslmode,
           ptableName := tableName, pmaxRetry := goFloat32OfInt maxRetry,
           pretryIntervalSec := goFloat32OfInt retryIntervalSec }

/-- Tagged wire union of destination attribute shapes (the `FromXAttributes`
union of the generated DTOs). -/
inductive WireUnion where
  | webhook (w : WebhookAttributes)
  | s3 (w : S3Attributes)
  | postgres (w : PostgresAttributes)
deriving DecidableEq, Repr

/-- Embedding of the destination switch shared by `Create` (stream_resource.go
654-694) and `Update` (990-1030): dispatch on the discriminant, unknown
discriminants fail with the explicit unsupported-destination error. -/
def encodeMap (d : String) (m : List (String × GoValue)) :
    Except String WireUnion :=
  if d = "webhook" then (getWebhookAttributes m).map WireUnion.webhook
  else if d = "s3" then (getS3Attributes m).map WireUnion.s3
  else if d = "postgres" then (getPostgresAttributes m).map WireUnion.postgres
  else .error ("Destination type '" ++ d ++ "' is not supported")

/-- Full encoder: internal attribute object to typed wire union. -/
def encodeDest (d : String) (o : DestObj) : Except String WireUnion :=
  encodeMap d (convertDestinationAttributes o)

/-!
Decode side: `updateDestinationAttributesFromAPI` (stream_resource.go
1161-1255) turns the generic JSON key/value map returned by the API back into
the Terraform object.  JSON values are strings, numbers (float64, embedded as
rationals), booleans, objects, or null.
-/

/-- Dynamically typed JSON value as produced by `json.Unmarshal` into
`map[string]interface{}`; numbers arrive as float64, embedded as rationals. -/
inductive ApiValue where
  | str (s : String)
  | num (q : ℚ)
  | bool (b : Bool)
  | obj (m : List (String × String))
  | null
deriving DecidableEq, Repr

/-- Go's `int64(float64)` conversion: truncation toward zero. -/
def goTrunc (q : ℚ) : Int :=
  if 0 ≤ q then ⌊q⌋ else ⌈q⌉

/-- String attributes whose empty value is normalized to null on decode
(stream_resource.go 1196: access_key, secret_key, bucket, region,
file_compression, sslmode). -/
def emptyNormalizedKeys : List String :=
  ["access_key", "secret_key", "bucket", "region", "file_compression", "sslmode"]

/-- Assigns a decoded string to the string-typed schema attribute named `k`;
`none` when `k` is not a string-typed schema attribute, in which case the
final `types.ObjectValue` call rejects the attribute map. -/
def setStrAttr (o : DestObj) (k : String) (v : Option String) : Option DestObj :=
  match k with
  | "url" => some { o with url := v }
  | "compression" => some { o with compression := v }
  | "security_token" => some { o with security_token := v }
  | "version" => some { o with version := v }
  | "access_key" => some { o with access_key := v }
  | "secret_key" => some { o with secret_key := v }
  | "bucket" => some { o with bucket := v }
  | "region" => some { o with region := v }
  | "endpoint" => some { o with endpoint := v }
  | "object_prefix" => some { o with object_prefix := v }
  | "file_compression" => some { o with file_compression := v }
  | "file_type" => some { o with file_type := v }
  | "username" => some { o with username := v }
  | "password" => some { o with password := v }
  | "host" => some { o with host := v }
  | "database" => some { o with database := v }
  | "table_name" => some { o with table_name := v }
  | "sslmode" => some { o with sslmode := v }
  | _ => none

/-- Assigns a decoded integer to the Int64-typed schema attribute named `k`. -/
def setIntAttr (o : DestObj) (k : String) (v : Option Int) : Option DestObj :=
  match k with
  | "max_retry" => some { o with max_retry := v }
  | "retry_interval_sec" => some { o with retry_interval_sec := v }
  | "post_timeout_sec" => some { o with post_timeout_sec := v }
  | "port" => some { o with port := v }
  | _ => none

/-- One iteration of the decode loop (stream_resource.go 1192-1220): the type
switch on the JSON value.  Strings may be normalized to null; numbers are
truncated to Int64 with `int64(val)`; a nil value matches no case and leaves
the pre-initialized null in place; a value whose type does not match the
schema type of `k` (or an unknown key) makes the final `types.ObjectValue`
call fail. -/
def decodeStep (o : DestObj) (k : String) (v : ApiValue) : Option DestObj :=
  match v with
  | .str s =>
      setStrAttr o k (if s = "" ∧ k ∈ emptyNormalizedKeys then none else some s)
  | .num q => setIntAttr o k (some (goTrunc q))
  | .bool b => if k = "use_ssl" then some { o with use_ssl := some b } else none
  | .obj m => if k = "headers" then some { o with headers := some m } else none
  | .null => some o

/-- Folds the decode loop over the API map, starting from the all-null object
(stream_resource.go 1166-1189 pre-initializes every attribute to null). -/
def apiDecodeAttrs : DestObj → List (String × ApiValue) → Option DestObj
  | o, [] => some o
  | o, (k, v) :: rest =>
      match decodeStep o k v with
      | none => none
      | some o2 => apiDecodeAttrs o2 rest

/-- Embedding of `updateDestinationAttributesFromAPI` (stream_resource.go
1161-1255): decode the wire key/value map into the Terraform object, failing
when the assembled attribute map does not fit the object type. -/
def updateDestinationAttributesFromAPI (m : List (String × ApiValue)) :
    Except String DestObj :=
  match apiDecodeAttrs {} m with
  | some o => .ok o
  | none => .error "error creating destination_attributes object"

/-- Modelled from the spec: the JSON wire form of the generated
`streams.WebhookAttributes` struct (the generated `api/streams` client is not
under src/); per the wire contract its keys are the schema attribute names. -/
def wireOfWebhook (w : WebhookAttributes) : List (String × ApiValue) :=
  [ ("url", .str w.wurl), ("compression", .str w.wcompression),
    ("headers", .obj w.wheaders), ("max_retry", .num w.wmaxRetry),
    ("post_timeout_sec", .num w.wpostTimeoutSec),
    ("retry_interval_sec", .num w.wretryIntervalSec),
    ("security_token", .str w.wsecurityToken) ]

/-- Modelled from the spec: the JSON wire form of `streams.S3Attributes`. -/
def wireOfS3 (w : S3Attributes) : List (String × ApiValue) :=
  [ ("endpoint", .str w.sendpoint), ("access_key", .str w.saccessKey),
    ("secret_key", .str w.ssecretKey), ("bucket", .str w.sbucket),
    ("object_prefix", .str w.sobjectPrefix),
    ("file_compression", .str w.sfileCompression),
    ("file_type", .str w.sfileType), ("max_retry", .num w.smaxRetry),
    ("retry_interval_sec", .num w.sretryIntervalSec),
    ("use_ssl", .bool w.suseSsl) ]

/-- Modelled from the spec: the JSON wire form of `streams.PostgresAttributes`. -/
def wireOfPostgres (w : PostgresAttributes) : List (String × ApiValue) :=
  [ ("username", .str w.pusername), ("password", .str w.ppassword),
    ("host", .str w.phost), ("port", .num w.pport),
    ("database", .str w.pdatabase), ("access_key", .str w.paccessKey),
    ("sslmode", .str w.psslmode), ("table_name", .str w.ptableName),
    ("max_retry", .num w.pmaxRetry),
    ("retry_interval_sec", .num w.pretryIntervalSec) ]

/-- Wire form of the tagged union. -/
def wireOf : WireUnion → List (String × ApiValue)
  | .webhook w => wireOfWebhook w
  | .s3 w => wireOfS3 w
  | .postgres w => wireOfPostgres w

/-!
Validators (internal/validators/stream_validators.go).
-/

/-- Embedding of `StringOneOfValidator.ValidateString` (stream_validators.go
39-57) for a non-null configured value: accepted iff the value occurs in the
validator's list. -/
def stringOneOfValidate (values : List String) (v : String) : Bool :=
  values.contains v

/-- Value list of `DestinationValidator` (stream_validators.go 159-161). -/
def destinationValidatorValues : List String :=
  ["webhook", "s3", "function", "postgres"]

/-- Embedding of `Int64RangeValidator.ValidateInt64` (stream_validators.go
101-115) for a non-null value: accepted iff min <= value <= max. -/
def int64RangeValid (lo hi v : Int) : Prop :=
  lo ≤ v ∧ v ≤ hi

/-!
Stream resource reconciliation engine (stream_resource.go).  The remote calls
issued by `Update` and `Create` are recorded as an ordered trace; the
environment fixes the outcome each remote call would have.
-/

/-- Remote calls a stream operation can issue, in the order they appear in the
trace. -/
inductive StreamCall where
  | fetchStream
  | pauseStream
  | updateStream
  | activateStream
  | refetchStream
  | createStream
deriving DecidableEq, Repr

/-- Failure surfaced by a stream operation, tagged with the step that raised
it (the `AddError` summaries of stream_resource.go). -/
inductive StreamErr where
  | readFail
  | pauseFail
  | encodeFail (m : String)
  | updateFail
  | activateFail
  | refetchFail
  | createFail
  | parseIdFail
deriving DecidableEq, Repr

/-- Desired-state snapshot supplied to the stream operations: the destination
discriminant and the destination_attributes object (`none` = Terraform null). -/
structure StreamPlan where
  destination : String
  destObj : Option DestObj

/-- Environment of one `Update` run: outcome of the initial
`readStreamFromAPI` (error, or the fetched lifecycle status), of the pause,
core update and activate calls, and of the final re-fetch. -/
structure StreamUpdateEnv where
  readRes : Except String String
  pauseRes : CallRes
  updateRes : CallRes
  activateRes : CallRes
  refetchRes : Except String Unit

/-- Encoding step shared by `Update` (stream_resource.go 981-1033): skipped
when destination_attributes is null, otherwise convert and dispatch on the
discriminant. -/
def encodeStep (plan : StreamPlan) : Except String Unit :=
  match plan.destObj with
  | none => .ok ()
  | some o => (encodeDest plan.destination o).map fun _ => ()

/-- Tail of `Update` after the status fetch and conditional pause
(stream_resource.go 940-1155): encode destination attributes, issue the core
update (success = 200), conditionally reactivate (success = 200 or 201), then
re-fetch.  `t0` is the trace accumulated so far. -/
def streamUpdateCore (plan : StreamPlan) (env : StreamUpdateEnv)
    (wasActive : Bool) (t0 : List StreamCall) :
    List StreamCall × Except StreamErr Unit :=
  match encodeStep plan with
  | .error m => (t0, .error (.encodeFail m))
  | .ok _ =>
    let t1 := t0 ++ [.updateStream]
    if !callOk env.updateRes [200] then (t1, .error .updateFail)
    else if wasActive then
      let t2 := t1 ++ [.activateStream]
      if !callOk env.activateRes [200, 201] then (t2, .error .activateFail)
      else
        match env.refetchRes with
        | .error _ => (t2 ++ [.refetchStream], .error .refetchFail)
        | .ok _ => (t2 ++ [.refetchStream], .ok ())
    else
      match env.refetchRes with
      | .error _ => (t1 ++ [.refetchStream], .error .refetchFail)
      | .ok _ => (t1 ++ [.refetchStream], .ok ())

/-- Embedding of `StreamResource.Update` (stream_resource.go 862-1155): fetch
the current status; if it is "active", pause (success = 200 or 201) and
remember that a reactivation is owed; then run the core update tail. -/
def streamUpdate (plan : StreamPlan) (env : StreamUpdateEnv) :
    List StreamCall × Except StreamErr Unit :=
  match env.readRes with
  | .error _ => ([.fetchStream], .error .readFail)
  | .ok currentStatus =>
    if currentStatus = "active" then
      if !callOk env.pauseRes [200, 201] then
        ([.fetchStream, .pauseStream], .error .pauseFail)
      else
        streamUpdateCore plan env true [.fetchStream, .pauseStream]
    else
      streamUpdateCore plan env false [.fetchStream]

/-- Environment of one `Create` run: outcome of the create call, whether the
response body carried an id, and the outcome of the follow-up read. -/
structure StreamCreateEnv where
  createRes : CallRes
  parseIdOk : Bool
  readRes : Except String Unit

/-- The `map[string]interface{}` Create and Update pass to the attribute
getters: `Attributes()` of a Terraform null object is the empty map. -/
def planObjMap (plan : StreamPlan) : List (String × GoValue) :=
  match plan.destObj with
  | some o => convertDestinationAttributes o
  | none => []

/-- Embedding of `StreamResource.Create` (stream_resource.go 603-788):
destination attributes are encoded before any remote call (654-694, the
unsupported-destination default returns immediately); then the create call
(success = 201), the id parse, and the follow-up read. -/
def streamCreate (plan : StreamPlan) (env : StreamCreateEnv) :
    List StreamCall × Except StreamErr Unit :=
  match encodeMap plan.destination (planObjMap plan) with
  | .error m => ([], .error (.encodeFail m))
  | .ok _ =>
    if !callOk env.createRes [201] then ([.createStream], .error .createFail)
    else if !env.parseIdOk then ([.createStream], .error .parseIdFail)
    else
      match env.readRes with
      | .error _ => ([.createStream, .fetchStream], .error .readFail)
      | .ok _ => ([.createStream, .fetchStream], .ok ())

/-!
Endpoint resource (endpoint_resource.go): create with best-effort label patch
and per-label tag creation, and update with tag set reconciliation.
-/

/-- Remote calls an endpoint operation can issue. -/
inductive EpCall where
  | createEndpoint
  | updateEndpoint
  | showEndpoint
  | createTag (l : String)
  | deleteTag (id : Int)
  | archiveEndpoint
deriving DecidableEq, Repr

/-- Is this call a tag creation? -/
def EpCall.isCreateTag : EpCall → Bool
  | .createTag _ => true
  | _ => false

/-- Is this call a tag deletion? -/
def EpCall.isDeleteTag : EpCall → Bool
  | .deleteTag _ => true
  | _ => false

/-- Result of `EndpointResource.Create`: the ordered remote-call trace, the
error diagnostics added, whether `resp.State.Set` was reached (committing the
new resource's identity), and whether the run panicked (nil response
dereference). -/
structure EpCreateResult where
  trace : List EpCall
  errors : List String
  stateSet : Bool
  panicked : Bool
deriving DecidableEq, Repr

/-- Environment of one endpoint `Create` run. -/
structure EpCreateEnv where
  createRes : CallRes
  labelRes : CallRes
  tagRes : String → CallRes

/-- Tag-creation loop of endpoint `Create` (endpoint_resource.go 324-352): one
`CreateTag` per declared label; the first failing call adds an error and
returns from `Create` immediately. -/
def epCreateTagLoop (tagRes : String → CallRes) : List String →
    List EpCall × Option String
  | [] => ([], none)
  | t :: rest =>
    if callOk (tagRes t) [200] then
      let r := epCreateTagLoop tagRes rest
      (.createTag t :: r.1, r.2)
    else ([.createTag t], some ("Creating Tag: " ++ t))

/-- Tail of endpoint `Create` after the core create and label patch: run the
tag loop; on success fall through to `resp.State.Set` (endpoint_resource.go
356), on failure return before it. -/
def epCreateTags (tags : List String) (env : EpCreateEnv) (t1 : List EpCall)
    (errs1 : List String) : EpCreateResult :=
  match epCreateTagLoop env.tagRes tags with
  | (evs, none) => ⟨t1 ++ evs, errs1, true, false⟩
  | (evs, some e) => ⟨t1 ++ evs, errs1 ++ [e], false, false⟩

/-- Embedding of `EndpointResource.Create` (endpoint_resource.go 229-357).
The core create must return 200.  A non-empty label triggers a best-effort
`UpdateEndpoint` patch whose failure adds an error without returning; on a
transport error the source then calls `StatusCode()` on the nil response and
panics (lines 304-311).  Tag creations follow; their first failure returns
before the state is committed. -/
def epCreate (label : String) (tags : List String) (env : EpCreateEnv) :
    EpCreateResult :=
  match env.createRes with
  | .err _ => ⟨[.createEndpoint], ["Client Error - Creating Endpoint"], false, false⟩
  | .status n =>
    if n = 200 then
      if label = "" then epCreateTags tags env [.createEndpoint] []
      else
        match env.labelRes with
        | .err _ =>
            ⟨[.createEndpoint, .updateEndpoint],
             ["Client Error - Patching Endpoint Label"], false, true⟩
        | .status m =>
          if m = 200 then
            epCreateTags tags env [.createEndpoint, .updateEndpoint] []
          else
            epCreateTags tags env [.createEndpoint, .updateEndpoint]
              ["Request Error - Patching Endpoint Label"]
    else ⟨[.createEndpoint], ["Request Error - Creating Endpoint"], false, false⟩

/-- Result of `EndpointResource.Update`. -/
structure EpUpdateResult where
  trace : List EpCall
  errors : List String
  stateSet : Bool
deriving DecidableEq, Repr

/-- Environment of one endpoint `Update` run: outcomes of the label patch and
the tag-id fetch, the fetched remote tags (label and id, either possibly
absent), and outcomes of the per-label tag calls. -/
structure EpUpdateEnv where
  updateRes : CallRes
  showRes : CallRes
  remoteTags : List (Option String × Option Int)
  createTagRes : String → CallRes
  deleteTagRes : Int → CallRes

/-- Lookup in the label-to-id mapping. -/
def lookupTag : List (String × Int) → String → Option Int
  | [], _ => none
  | (k, v) :: rest, l => if k = l then some v else lookupTag rest l

/-- Go map insertion `currentTags[label] = id`: overwrite an existing binding
or append a new one. -/
def insertTag (ct : List (String × Int)) (l : String) (i : Int) :
    List (String × Int) :=
  if (lookupTag ct l).isSome then
    ct.map fun p => if p.1 = l then (l, i) else p
  else ct ++ [(l, i)]

/-- Builds `currentTags` from the fetched endpoint (endpoint_resource.go
505-512): entries whose label or id is absent are skipped. -/
def currentTagsOf (rts : List (Option String × Option Int)) :
    List (String × Int) :=
  rts.foldl
    (fun ct p =>
      match p with
      | (some l, some i) => insertTag ct l i
      | _ => ct)
    []

/-- Tag-addition loop of endpoint `Update` (endpoint_resource.go 526-555):
for each planned label absent from `currentTags`, issue `CreateTag`; the
first failing call returns from `Update`. -/
def epAddLoop (createTagRes : String → CallRes) (ct : List (String × Int)) :
    List String → List EpCall × Option String
  | [] => ([], none)
  | t :: rest =>
    if (lookupTag ct t).isSome then epAddLoop createTagRes ct rest
    else if callOk (createTagRes t) [200] then
      let r := epAddLoop createTagRes ct rest
      (.createTag t :: r.1, r.2)
    else ([.createTag t], some "Creating Tag")

/-- Tag-removal loop of endpoint `Update` (endpoint_resource.go 558-584):
for each `currentTags` entry whose label is not planned, issue `DeleteTag`;
the first failing call returns from `Update`. -/
def epDelLoop (deleteTagRes : Int → CallRes) (planTags : List String) :
    List (String × Int) → List EpCall × Option String
  | [] => ([], none)
  | (l, i) :: rest =>
    if planTags.contains l then epDelLoop deleteTagRes planTags rest
    else if callOk (deleteTagRes i) [200] then
      let r := epDelLoop deleteTagRes planTags rest
      (.deleteTag i :: r.1, r.2)
    else ([.deleteTag i], some "Deleting Tag")

/-- Embedding of `EndpointResource.Update` (endpoint_resource.go 444-587):
label patch, fetch of the current endpoint for tag ids, then tag additions
followed by tag removals; the final `resp.State.Set` runs only when every
step succeeded. -/
def epUpdate (planTags : List String) (env : EpUpdateEnv) : EpUpdateResult :=
  if !callOk env.updateRes [200] then
    ⟨[.updateEndpoint], ["Patching Endpoint"], false⟩
  else if !callOk env.showRes [200] then
    ⟨[.updateEndpoint, .showEndpoint], ["Reading Endpoint for Tags"], false⟩
  else
    let ct := currentTagsOf env.remoteTags
    match epAddLoop env.createTagRes ct planTags with
    | (evs, some e) => ⟨[.updateEndpoint, .showEndpoint] ++ evs, [e], false⟩
    | (evs, none) =>
      match epDelLoop env.deleteTagRes planTags ct with
      | (devs, some e) =>
          ⟨[.updateEndpoint, .showEndpoint] ++ evs ++ devs, [e], false⟩
      | (devs, none) =>
          ⟨[.updateEndpoint, .showEndpoint] ++ evs ++ devs, [], true⟩

/-- Embedding of `EndpointResource.Delete` (endpoint_resource.go 589-623):
one archive call, a non-200 status is a hard failure. -/
def epDelete (archiveRes : CallRes) : List EpCall × List String :=
  ([.archiveEndpoint],
   if callOk archiveRes [200] then [] else ["Deleting Endpoint"])

/-!
Rate-governed retrying HTTP client (internal/client/transport/
throttled_transport.go).  `clientDo` embeds the retry loop of the external
go-retryablehttp `Client.Do` restricted to what the source configures: the
transport is the `ThrottledTransport` (every attempt calls `limiter.Wait`
before the inner round trip) and `PrepareRetry` is `limiter.Wait` (every
retry re-acquires before re-dispatch).
-/

/-- Observable events of the throttled client: a limiter acquisition
(successful or failed) and a dispatch to the underlying transport. -/
inductive HttpEv where
  | acquire (ok : Bool)
  | dispatch
deriving DecidableEq, Repr

/-- Result of one attempt or of the whole call: the limiter's error (returned
by `RoundTrip` before the inner transport runs), a transport error from the
inner round trip, or a response status. -/
inductive RTRes where
  | limErr (e : String)
  | transErr (e : String)
  | resp (code : Nat)
deriving DecidableEq, Repr

/-- Environment of one client call: the result of the n-th `limiter.Wait`
(`none` = token acquired) and of the n-th inner round trip. -/
structure ThrottleEnv where
  wait : Nat → Option String
  inner : Nat → Except String Nat

/-- Embedding of `ThrottledTransport.RoundTrip` (throttled_transport.go
33-39): wait on the limiter; on error return it without invoking the inner
round tripper; otherwise dispatch. -/
def throttledRoundTrip (w : Option String) (innerRes : Except String Nat) :
    List HttpEv × RTRes :=
  match w with
  | some e => ([.acquire false], .limErr e)
  | none =>
      ([.acquire true, .dispatch],
       match innerRes with
       | .error e => .transErr e
       | .ok c => .resp c)

/-- One attempt of the client: the throttled round trip fed from the
environment counters (`wn` limiter waits, `dn` inner dispatches so far). -/
def attemptOnce (env : ThrottleEnv) (wn dn : Nat) : List HttpEv × RTRes :=
  throttledRoundTrip (env.wait wn) (env.inner dn)

/-- Embedding of the go-retryablehttp `Client.Do` loop as configured by
`NewRetryableThrottledClient` (throttled_transport.go 48-63): each attempt
runs through `ThrottledTransport.RoundTrip`; when the retry policy asks for a
retry and retries remain, `PrepareRetry` (= `limiter.Wait`, lines 53-55) runs
before the next attempt, and its failure aborts the call with that error. -/
def clientDo (env : ThrottleEnv) (policy : RTRes → Bool) :
    Nat → Nat → Nat → List HttpEv × RTRes
  | 0, wn, dn => attemptOnce env wn dn
  | fuel + 1, wn, dn =>
    let a := attemptOnce env wn dn
    if policy a.2 then
      match env.wait (wn + 1) with
      | some e => (a.1 ++ [.acquire false], .limErr e)
      | none =>
        let rest := clientDo env policy fuel (wn + 2)
          (dn + if (env.wait wn).isNone then 1 else 0)
        (a.1 ++ .acquire true :: rest.1, rest.2)
    else a

/-- Trace well-formedness: every dispatch is immediately preceded by a
successful acquisition (`prev` is the event before the remaining list). -/
def gatedFrom (prev : Option HttpEv) : List HttpEv → Bool
  | [] => true
  | e :: rest =>
    (match e with
     | .dispatch => prev == some (.acquire true)
     | _ => true) && gatedFrom (some e) rest

/-- Every dispatch in the trace is immediately preceded by a successful
limiter acquisition. -/
def dispatchGated (t : List HttpEv) : Bool := gatedFrom none t

/-!
Helper lemmas: the possible call traces of the stream update tail.
-/

/-- Possible traces of the update tail when no reactivation is owed: the tail
appends at most the core update and the re-fetch, never a pause or an
activation. -/
theorem streamUpdateCore_trace_inactive (plan : StreamPlan)
    (env : StreamUpdateEnv) (t0 : List StreamCall) :
    (streamUpdateCore plan env false t0).1 = t0 ∨
    (streamUpdateCore plan env false t0).1 = t0 ++ [.updateStream] ∨
    (streamUpdateCore plan env false t0).1 =
      t0 ++ [.updateStream, .refetchStream] := by
  unfold streamUpdateCore
  cases encodeStep plan with
  | error m => simp
  | ok _ =>
    by_cases hu : callOk env.updateRes [200] = true
    · simp only [hu, Bool.not_true, Bool.false_eq_true, if_false]
      cases env.refetchRes <;> simp
    · simp only [Bool.not_eq_true] at hu
      simp [hu]

/-- Possible traces of the update tail when a reactivation is owed. -/
theorem streamUpdateCore_trace_active (plan : StreamPlan)
    (env : StreamUpdateEnv) (t0 : List StreamCall) :
    (streamUpdateCore plan env true t0).1 = t0 ∨
    (streamUpdateCore plan env true t0).1 = t0 ++ [.updateStream] ∨
    (streamUpdateCore plan env true t0).1 =
      t0 ++ [.updateStream, .activateStream] ∨
    (streamUpdateCore plan env true t0).1 =
      t0 ++ [.updateStream, .activateStream, .refetchStream] := by
  unfold streamUpdateCore
  cases encodeStep plan with
  | error m => simp
  | ok _ =>
    by_cases hu : callOk env.updateRes [200] = true
    · by_cases ha : callOk env.activateRes [200, 201] = true
      · simp only [hu, ha, Bool.not_true, Bool.false_eq_true, if_false]
        cases env.refetchRes <;> simp
      · simp only [Bool.not_eq_true] at ha
        simp [hu, ha]
    · simp only [Bool.not_eq_true] at hu
      simp [hu]

/-- C1: an Update whose freshly fetched status is "active" issues Pause before
the core update call and Activate only after the core update, in that order;
an Update whose fetched status is anything other than "active" issues neither
Pause nor Activate. -/
theorem stream_update_pause_activate_bracket (plan : StreamPlan)
    (env : StreamUpdateEnv) (st : String) (h : env.readRes = .ok st) :
    (st = "active" →
      StreamCall.pauseStream ∈ (streamUpdate plan env).1 ∧
      (StreamCall.updateStream ∈ (streamUpdate plan env).1 →
        [StreamCall.pauseStream, StreamCall.updateStream].Sublist
          (streamUpdate plan env).1) ∧
      (StreamCall.activateStream ∈ (streamUpdate plan env).1 →
        [StreamCall.pauseStream, StreamCall.updateStream,
         StreamCall.activateStream].Sublist (streamUpdate plan env).1)) ∧
    (st ≠ "active" →
      StreamCall.pauseStream ∉ (streamUpdate plan env).1 ∧
      StreamCall.activateStream ∉ (streamUpdate plan env).1) := by
  simp only [streamUpdate, h]
  by_cases hst : st = "active"
  · rw [if_pos hst]
    refine ⟨fun _ => ?_, fun hne => absurd hst hne⟩
    by_cases hp : callOk env.pauseRes [200, 201] = true
    · simp only [hp, Bool.not_true, Bool.false_eq_true, if_false]
      rcases streamUpdateCore_trace_active plan env
          [.fetchStream, .pauseStream] with h1 | h1 | h1 | h1 <;>
        rw [h1] <;> exact ⟨by decide, by decide, by decide⟩
    · simp only [Bool.not_eq_true] at hp
      simp only [hp, Bool.not_false, if_true]
      exact ⟨by decide, by decide, by decide⟩
  · rw [if_neg hst]
    refine ⟨fun he => absurd he hst, fun _ => ?_⟩
    rcases streamUpdateCore_trace_inactive plan env [.fetchStream]
        with h1 | h1 | h1 <;> rw [h1] <;> exact ⟨by decide, by decide⟩

/-- Witness for C1 at a concrete run: status "active", all calls succeed. -/
theorem stream_update_pause_activate_bracket_witness :
    [StreamCall.pauseStream, StreamCall.updateStream,
     StreamCall.activateStream].Sublist
      (streamUpdate ⟨"webhook", none⟩
        ⟨.ok "active", .status 200, .status 200, .status 201, .ok ()⟩).1 :=
  ((stream_update_pause_activate_bracket ⟨"webhook", none⟩
    ⟨.ok "active", .status 200, .status 200, .status 201, .ok ()⟩
    "active" rfl).1 rfl).2.2 (by decide)

/-- C2: once Pause has succeeded in an Update, a failure of the core update
surfaces that failure and stops — no Activate and no further remote call is
issued (the stream stays paused); likewise a failure of Activate surfaces the
failure and stops before the final re-fetch. -/
theorem stream_update_no_auto_unwind (plan : StreamPlan)
    (env : StreamUpdateEnv) (hread : env.readRes = .ok "active")
    (hpause : callOk env.pauseRes [200, 201] = true)
    (henc : encodeStep plan = .ok ()) :
    (callOk env.updateRes [200] = false →
      streamUpdate plan env =
        ([.fetchStream, .pauseStream, .updateStream], .error .updateFail)) ∧
    (callOk env.updateRes [200] = true →
      callOk env.activateRes [200, 201] = false →
      streamUpdate plan env =
        ([.fetchStream, .pauseStream, .updateStream, .activateStream],
         .error .activateFail)) := by
  unfold streamUpdate streamUpdateCore
  rw [hread, henc]
  simp only [if_pos rfl, hpause, Bool.not_true, Bool.false_eq_true, if_false]
  constructor
  · intro hu
    simp [hu]
  · intro hu ha
    simp [hu, ha]

/-- Witness for C2 at a concrete run: pause succeeds, core update returns
500; the run ends after the failed update with no Activate call. -/
theorem stream_update_no_auto_unwind_witness :
    streamUpdate ⟨"webhook", none⟩
      ⟨.ok "active", .status 200, .status 500, .status 200, .ok ()⟩ =
      ([.fetchStream, .pauseStream, .updateStream], .error .updateFail) :=
  (stream_update_no_auto_unwind ⟨"webhook", none⟩
    ⟨.ok "active", .status 200, .status 500, .status 200, .ok ()⟩
    rfl rfl rfl).1 rfl

/-- C7: the schema-level destination validator accepts "function", yet any
Create whose destination is not webhook, s3 or postgres fails with the
explicit unsupported-destination error before issuing any remote call, and
any such Update never issues the core update call — the failure is the
explicit error, not a silent no-op. -/
theorem function_destination_accepted_but_unsupported :
    stringOneOfValidate destinationValidatorValues "function" = true ∧
    (∀ (plan : StreamPlan) (env : StreamCreateEnv),
      plan.destination ≠ "webhook" → plan.destination ≠ "s3" →
      plan.destination ≠ "postgres" →
      streamCreate plan env =
        ([], .error (.encodeFail
          ("Destination type '" ++ plan.destination ++ "' is not supported")))) ∧
    (∀ (plan : StreamPlan) (env : StreamUpdateEnv) (o : DestObj),
      plan.destObj = some o →
      plan.destination ≠ "webhook" → plan.destination ≠ "s3" →
      plan.destination ≠ "postgres" →
      StreamCall.updateStream ∉ (streamUpdate plan env).1 ∧
      (∀ st, env.readRes = .ok st → callOk env.pauseRes [200, 201] = true →
        (streamUpdate plan env).2 = .error (.encodeFail
          ("Destination type '" ++ plan.destination ++ "' is not supported")))) := by
  refine ⟨by decide, fun plan env hw hs hp => ?_, fun plan env o ho hw hs hp => ?_⟩
  · simp [streamCreate, encodeMap, hw, hs, hp]
  · have henc : encodeStep plan =
        .error ("Destination type '" ++ plan.destination ++ "' is not supported") := by
      simp [encodeStep, ho, encodeDest, encodeMap, hw, hs, hp, Except.map]
    constructor
    · cases hr : env.readRes with
      | error e => simp [streamUpdate, hr]
      | ok st =>
        by_cases hst : st = "active"
        · by_cases hpr : callOk env.pauseRes [200, 201] = true
          · simp [streamUpdate, hr, hst, hpr, streamUpdateCore, henc]
          · simp only [Bool.not_eq_true] at hpr
            simp [streamUpdate, hr, hst, hpr]
        · simp [streamUpdate, hr, hst, streamUpdateCore, henc]
    · intro st hr hpr
      by_cases hst : st = "active"
      · simp [streamUpdate, hr, hst, hpr, streamUpdateCore, henc]
      · simp [streamUpdate, hr, hst, streamUpdateCore, henc]

/-- Witness for C7 at the concrete discriminant "function": Create issues no
remote call and fails with the explicit unsupported-destination error. -/
theorem function_destination_accepted_but_unsupported_witness :
    streamCreate ⟨"function", some {}⟩ ⟨.status 201, true, .ok ()⟩ =
      ([], .error (.encodeFail "Destination type 'function' is not supported")) :=
  function_destination_accepted_but_unsupported.2.1 ⟨"function", some {}⟩
    ⟨.status 201, true, .ok ()⟩ (by decide) (by decide) (by decide)

/-!
Helper lemmas for the endpoint tag loops.
-/

/-- The label-to-id mapping contains a binding for `l` iff `l` is one of its
labels. -/
theorem lookupTag_isSome (ct : List (String × Int)) (l : String) :
    (lookupTag ct l).isSome = true ↔ l ∈ ct.map Prod.fst := by
  induction ct with
  | nil => simp [lookupTag]
  | cons p rest ih =>
    obtain ⟨k, v⟩ := p
    by_cases h : k = l
    · subst h
      simp [lookupTag]
    · simp [lookupTag, h, ih, Ne.symm h]

/-- When every tag creation succeeds, the addition loop issues exactly one
CreateTag per planned label that has no current binding, in plan order. -/
theorem epAddLoop_all_ok (cr : String → CallRes) (ct : List (String × Int))
    (ts : List String) (hok : ∀ t, callOk (cr t) [200] = true) :
    epAddLoop cr ct ts =
      ((ts.filter fun t => !(lookupTag ct t).isSome).map EpCall.createTag,
       none) := by
  induction ts with
  | nil => simp [epAddLoop]
  | cons t rest ih =>
    cases hl : lookupTag ct t with
    | some v => simp [epAddLoop, hl, ih, List.filter_cons]
    | none => simp [epAddLoop, hl, hok t, ih, List.filter_cons]

/-- When every tag deletion succeeds, the removal loop issues exactly one
DeleteTag per current binding whose label is not planned. -/
theorem epDelLoop_all_ok (dr : Int → CallRes) (pts : List String)
    (ct : List (String × Int)) (hok : ∀ i, callOk (dr i) [200] = true) :
    epDelLoop dr pts ct =
      ((ct.filter fun p => !pts.contains p.1).map
        (fun p => EpCall.deleteTag p.2), none) := by
  induction ct with
  | nil => simp [epDelLoop]
  | cons p rest ih =>
    obtain ⟨l, i⟩ := p
    by_cases h : l ∈ pts <;>
      simp [epDelLoop, h, hok i, ih, List.filter_cons]

/-- The whole endpoint Update trace when the label patch, the tag-id fetch
and every tag call succeed. -/
theorem epUpdate_trace_all_ok (pts : List String) (env : EpUpdateEnv)
    (h1 : callOk env.updateRes [200] = true)
    (h2 : callOk env.showRes [200] = true)
    (hc : ∀ t, callOk (env.createTagRes t) [200] = true)
    (hd : ∀ i, callOk (env.deleteTagRes i) [200] = true) :
    epUpdate pts env =
      ⟨[.updateEndpoint, .showEndpoint] ++
        ((pts.filter fun t =>
            !(lookupTag (currentTagsOf env.remoteTags) t).isSome).map
          EpCall.createTag) ++
        (((currentTagsOf env.remoteTags).filter fun p =>
            !pts.contains p.1).map fun p => EpCall.deleteTag p.2),
       [], true⟩ := by
  simp [epUpdate, h1, h2, epAddLoop_all_ok _ _ _ hc, epDelLoop_all_ok _ _ _ hd]

/-- C3: in a completed endpoint Update, the trace creates exactly the desired
labels with no binding in the fetched label-to-id mapping, and deletes
exactly the fetched bindings whose label is not desired — labels compared by
exact string equality. -/
theorem endpoint_update_tag_diff (pts : List String) (env : EpUpdateEnv)
    (h1 : callOk env.updateRes [200] = true)
    (h2 : callOk env.showRes [200] = true)
    (hc : ∀ t, callOk (env.createTagRes t) [200] = true)
    (hd : ∀ i, callOk (env.deleteTagRes i) [200] = true) :
    (∀ l, EpCall.createTag l ∈ (epUpdate pts env).trace ↔
      l ∈ pts ∧ l ∉ (currentTagsOf env.remoteTags).map Prod.fst) ∧
    (∀ i, EpCall.deleteTag i ∈ (epUpdate pts env).trace ↔
      ∃ l, (l, i) ∈ currentTagsOf env.remoteTags ∧ l ∉ pts) := by
  rw [epUpdate_trace_all_ok pts env h1 h2 hc hd]
  constructor
  · intro l
    constructor
    · intro hmem
      rcases List.mem_append.mp hmem with hmem1 | hdel
      · rcases List.mem_append.mp hmem1 with hpre | hadd
        · simp at hpre
        · obtain ⟨t, htf, he⟩ := List.mem_map.mp hadd
          obtain ⟨ht, hcond⟩ := List.mem_filter.mp htf
          cases he
          refine ⟨ht, fun hin => ?_⟩
          rw [← lookupTag_isSome] at hin
          simp [hin] at hcond
      · obtain ⟨p, hpf, he⟩ := List.mem_map.mp hdel
        exact EpCall.noConfusion he
    · rintro ⟨ht, hnotin⟩
      refine List.mem_append.mpr (Or.inl (List.mem_append.mpr (Or.inr ?_)))
      refine List.mem_map.mpr ⟨l, List.mem_filter.mpr ⟨ht, ?_⟩, rfl⟩
      have hs : (lookupTag (currentTagsOf env.remoteTags) l).isSome = false := by
        rw [← Bool.not_eq_true]
        exact fun hy => hnotin ((lookupTag_isSome _ _).mp hy)
      simp [hs]
  · intro i
    constructor
    · intro hmem
      rcases List.mem_append.mp hmem with hmem1 | hdel
      · rcases List.mem_append.mp hmem1 with hpre | hadd
        · simp at hpre
        · obtain ⟨t, htf, he⟩ := List.mem_map.mp hadd
          exact EpCall.noConfusion he
      · obtain ⟨p, hpf, he⟩ := List.mem_map.mp hdel
        obtain ⟨l0, i0⟩ := p
        obtain ⟨hpc, hcond⟩ := List.mem_filter.mp hpf
        injection he with hei
        subst hei
        exact ⟨l0, hpc, by simpa using hcond⟩
    · rintro ⟨l, hmem, hnp⟩
      refine List.mem_append.mpr (Or.inr ?_)
      exact List.mem_map.mpr
        ⟨(l, i), List.mem_filter.mpr ⟨hmem, by simpa using hnp⟩, rfl⟩

/-- Witness for C3 on the spec example: desired {"a","b"}, remote
{"b" ↦ 1, "c" ↦ 2} — the trace creates "a" and deletes id 2. -/
theorem endpoint_update_tag_diff_witness :
    EpCall.createTag "a" ∈
      (epUpdate ["a", "b"]
        ⟨.status 200, .status 200, [(some "b", some 1), (some "c", some 2)],
         fun _ => .status 200, fun _ => .status 200⟩).trace ∧
    EpCall.deleteTag 2 ∈
      (epUpdate ["a", "b"]
        ⟨.status 200, .status 200, [(some "b", some 1), (some "c", some 2)],
         fun _ => .status 200, fun _ => .status 200⟩).trace :=
  ⟨((endpoint_update_tag_diff ["a", "b"]
      ⟨.status 200, .status 200, [(some "b", some 1), (some "c", some 2)],
       fun _ => .status 200, fun _ => .status 200⟩
      rfl rfl (fun _ => rfl) (fun _ => rfl)).1 "a").mpr (by decide),
   ((endpoint_update_tag_diff ["a", "b"]
      ⟨.status 200, .status 200, [(some "b", some 1), (some "c", some 2)],
       fun _ => .status 200, fun _ => .status 200⟩
      rfl rfl (fun _ => rfl) (fun _ => rfl)).2 2).mpr ⟨"c", by decide, by decide⟩⟩

/-- Every event the addition loop emits is a CreateTag. -/
theorem epAddLoop_all_create (cr : String → CallRes) (ct : List (String × Int))
    (ts : List String) : ∀ c ∈ (epAddLoop cr ct ts).1, c.isCreateTag = true := by
  induction ts with
  | nil => simp [epAddLoop]
  | cons t rest ih =>
    intro c hc
    unfold epAddLoop at hc
    by_cases hl : (lookupTag ct t).isSome = true
    · rw [if_pos hl] at hc
      exact ih c hc
    · rw [if_neg hl] at hc
      by_cases hr : callOk (cr t) [200] = true
      · rw [if_pos hr] at hc
        rcases List.mem_cons.mp hc with h | h
        · subst h
          rfl
        · exact ih c h
      · rw [if_neg hr] at hc
        rcases List.mem_cons.mp hc with h | h
        · subst h
          rfl
        · simp at h

/-- Every event the removal loop emits is a DeleteTag. -/
theorem epDelLoop_all_delete (dr : Int → CallRes) (pts : List String)
    (ct : List (String × Int)) :
    ∀ c ∈ (epDelLoop dr pts ct).1, c.isDeleteTag = true := by
  induction ct with
  | nil => simp [epDelLoop]
  | cons p rest ih =>
    obtain ⟨l, i⟩ := p
    intro c hc
    unfold epDelLoop at hc
    by_cases hl : pts.contains l = true
    · rw [if_pos hl] at hc
      exact ih c hc
    · rw [if_neg hl] at hc
      by_cases hr : callOk (dr i) [200] = true
      · rw [if_pos hr] at hc
        rcases List.mem_cons.mp hc with h | h
        · subst h
          rfl
        · exact ih c h
      · rw [if_neg hr] at hc
        rcases List.mem_cons.mp hc with h | h
        · subst h
          rfl
        · simp at h

/-- A CreateTag event is not a DeleteTag event. -/
theorem createNotDelete (c : EpCall) (h : c.isCreateTag = true) :
    c.isDeleteTag = false := by
  cases c <;> simp_all [EpCall.isCreateTag, EpCall.isDeleteTag]

/-- A DeleteTag event is not a CreateTag event. -/
theorem deleteNotCreate (c : EpCall) (h : c.isDeleteTag = true) :
    c.isCreateTag = false := by
  cases c <;> simp_all [EpCall.isCreateTag, EpCall.isDeleteTag]

/-- Every endpoint Update trace splits into a prefix free of deletions
followed by a suffix free of creations. -/
theorem epUpdate_trace_split (pts : List String) (env : EpUpdateEnv) :
    ∃ xs ys, (epUpdate pts env).trace = xs ++ ys ∧
      (∀ c ∈ xs, c.isDeleteTag = false) ∧
      (∀ c ∈ ys, c.isCreateTag = false) := by
  cases hu : callOk env.updateRes [200] with
  | false =>
    exact ⟨[.updateEndpoint], [], by simp [epUpdate, hu], by decide, by simp⟩
  | true =>
    cases hs : callOk env.showRes [200] with
    | false =>
      exact ⟨[.updateEndpoint, .showEndpoint], [],
        by simp [epUpdate, hu, hs], by decide, by simp⟩
    | true =>
      rcases haddeq : epAddLoop env.createTagRes
          (currentTagsOf env.remoteTags) pts with ⟨evs, oerr⟩
      have hevs : ∀ c ∈ evs, c.isCreateTag = true := by
        intro c hc
        exact epAddLoop_all_create env.createTagRes
          (currentTagsOf env.remoteTags) pts c (by rw [haddeq]; exact hc)
      have hxs : ∀ c ∈ [EpCall.updateEndpoint, EpCall.showEndpoint] ++ evs,
          c.isDeleteTag = false := by
        intro c hc
        rcases List.mem_append.mp hc with h | h
        · rcases List.mem_cons.mp h with rfl | h
          · rfl
          · rcases List.mem_cons.mp h with rfl | h
            · rfl
            · simp at h
        · exact createNotDelete c (hevs c h)
      cases oerr with
      | some e =>
        exact ⟨[EpCall.updateEndpoint, EpCall.showEndpoint] ++ evs, [],
          by simp [epUpdate, hu, hs, haddeq], hxs, by simp⟩
      | none =>
        rcases hdeleq : epDelLoop env.deleteTagRes pts
            (currentTagsOf env.remoteTags) with ⟨devs, derr⟩
        have hdevs : ∀ c ∈ devs, c.isCreateTag = false := by
          intro c hc
          refine deleteNotCreate c
            (epDelLoop_all_delete env.deleteTagRes pts
              (currentTagsOf env.remoteTags) c ?_)
          rw [hdeleq]
          exact hc
        cases derr with
        | some e =>
          exact ⟨[EpCall.updateEndpoint, EpCall.showEndpoint] ++ evs, devs,
            by simp [epUpdate, hu, hs, haddeq, hdeleq], hxs, hdevs⟩
        | none =>
          exact ⟨[EpCall.updateEndpoint, EpCall.showEndpoint] ++ evs, devs,
            by simp [epUpdate, hu, hs, haddeq, hdeleq], hxs, hdevs⟩

/-- In a list split into a deletion-free prefix and a creation-free suffix,
every creation index precedes every deletion index. -/
theorem split_creates_before_deletes (t xs ys : List EpCall)
    (ht : t = xs ++ ys) (hxs : ∀ c ∈ xs, c.isDeleteTag = false)
    (hys : ∀ c ∈ ys, c.isCreateTag = false) (i j : Nat)
    (hi : i < t.length) (hj : j < t.length)
    (hci : (t.get ⟨i, hi⟩).isCreateTag = true)
    (hdj : (t.get ⟨j, hj⟩).isDeleteTag = true) : i < j := by
  subst ht
  rw [List.get_eq_getElem] at hci hdj
  have hjge : xs.length ≤ j := by
    by_contra hlt
    push_neg at hlt
    rw [List.getElem_append_left hlt] at hdj
    rw [hxs _ (List.getElem_mem hlt)] at hdj
    exact Bool.false_ne_true hdj
  have hilt : i < xs.length := by
    by_contra hge
    push_neg at hge
    rw [List.getElem_append_right hge] at hci
    rw [hys _ (List.getElem_mem _)] at hci
    exact Bool.false_ne_true hci
  omega

/-- C9: in every endpoint Update trace, every tag-creation call is issued
before every tag-deletion call — additions first, then removals. -/
theorem endpoint_update_adds_before_removes (pts : List String)
    (env : EpUpdateEnv) (i j : Nat)
    (hi : i < (epUpdate pts env).trace.length)
    (hj : j < (epUpdate pts env).trace.length)
    (hci : ((epUpdate pts env).trace.get ⟨i, hi⟩).isCreateTag = true)
    (hdj : ((epUpdate pts env).trace.get ⟨j, hj⟩).isDeleteTag = true) :
    i < j := by
  obtain ⟨xs, ys, ht, hxs, hys⟩ := epUpdate_trace_split pts env
  exact split_creates_before_deletes _ xs ys ht hxs hys i j hi hj hci hdj

/-- Witness for C9 at a concrete run whose trace is
[UpdateEndpoint, ShowEndpoint, CreateTag "a", DeleteTag 2]: the creation at
index 2 precedes the deletion at index 3. -/
theorem endpoint_update_adds_before_removes_witness : (2 : Nat) < 3 :=
  endpoint_update_adds_before_removes ["a"]
    ⟨.status 200, .status 200, [(some "c", some 2)],
     fun _ => .status 200, fun _ => .status 200⟩
    2 3 (by decide) (by decide) (by decide) (by decide)

/-- When every tag creation succeeds, the Create tag loop issues one
CreateTag per declared label and reports no error. -/
theorem epCreateTagLoop_ok (tr : String → CallRes) (ts : List String)
    (h : ∀ t ∈ ts, callOk (tr t) [200] = true) :
    epCreateTagLoop tr ts = (ts.map EpCall.createTag, none) := by
  induction ts with
  | nil => simp [epCreateTagLoop]
  | cons t rest ih =>
    simp [epCreateTagLoop, h t (by simp),
      ih fun u hu => h u (by simp [hu])]

/-- The Create tag loop stops at its first failing label and reports it. -/
theorem epCreateTagLoop_fail (tr : String → CallRes) (pre : List String)
    (t : String) (post : List String)
    (hpre : ∀ u ∈ pre, callOk (tr u) [200] = true)
    (ht : callOk (tr t) [200] = false) :
    epCreateTagLoop tr (pre ++ t :: post) =
      (pre.map EpCall.createTag ++ [.createTag t],
       some ("Creating Tag: " ++ t)) := by
  induction pre with
  | nil => simp [epCreateTagLoop, ht]
  | cons u rest ih =>
    simp [epCreateTagLoop, hpre u (by simp),
      ih fun v hv => hpre v (by simp [hv])]

/-- Every event the Create tag loop emits is a CreateTag. -/
theorem epCreateTagLoop_all_create (tr : String → CallRes) (ts : List String) :
    ∀ c ∈ (epCreateTagLoop tr ts).1, c.isCreateTag = true := by
  induction ts with
  | nil => simp [epCreateTagLoop]
  | cons t rest ih =>
    intro c hc
    unfold epCreateTagLoop at hc
    by_cases hr : callOk (tr t) [200] = true
    · rw [if_pos hr] at hc
      rcases List.mem_cons.mp hc with h | h
      · subst h
        rfl
      · exact ih c h
    · rw [if_neg hr] at hc
      rcases List.mem_cons.mp hc with h | h
      · subst h
        rfl
      · simp at h

/-- The Create tail after the label step never issues the archive call. -/
theorem epCreateTags_no_archive (tags : List String) (env : EpCreateEnv)
    (t1 : List EpCall) (errs1 : List String)
    (h1 : EpCall.archiveEndpoint ∉ t1) :
    EpCall.archiveEndpoint ∉ (epCreateTags tags env t1 errs1).trace := by
  intro hmem
  unfold epCreateTags at hmem
  rcases heq : epCreateTagLoop env.tagRes tags with ⟨evs, o⟩
  have hloop : EpCall.archiveEndpoint ∉ evs := by
    intro hin
    have := epCreateTagLoop_all_create env.tagRes tags _ (by rw [heq]; exact hin)
    simp [EpCall.isCreateTag] at this
  rw [heq] at hmem
  cases o with
  | none =>
    rcases List.mem_append.mp hmem with h | h
    · exact h1 h
    · exact hloop h
  | some e =>
    rcases List.mem_append.mp hmem with h | h
    · exact h1 h
    · exact hloop h

/-- C10 counterexample: core create succeeds (200), the single declared tag
"a" fails with a 500 — the failure is reported and no archive call is issued,
but Create returns before `resp.State.Set`, so the new resource's identity is
NOT committed to the caller's state, contrary to the claim. -/
theorem endpoint_create_tag_failure_uncommitted :
    (epCreate "" ["a"]
      ⟨.status 200, .status 200, fun _ => .status 500⟩).stateSet = false ∧
    (epCreate "" ["a"]
      ⟨.status 200, .status 200, fun _ => .status 500⟩).errors ≠ [] ∧
    EpCall.archiveEndpoint ∉
      (epCreate "" ["a"]
        ⟨.status 200, .status 200, fun _ => .status 500⟩).trace := by
  decide

/-- C10 (amended): once the core create has succeeded, no failure triggers a
rollback — Create never issues the archive call.  A label-patch failure with
a non-200 status is reported and Create continues, committing the identity to
state; but a tag-creation failure is reported and Create returns before
committing the identity. -/
theorem endpoint_create_partial_failure (label : String) (tags : List String)
    (env : EpCreateEnv) (hcore : callOk env.createRes [200] = true) :
    EpCall.archiveEndpoint ∉ (epCreate label tags env).trace ∧
    (∀ m, label ≠ "" → env.labelRes = .status m → m ≠ 200 →
      (∀ t ∈ tags, callOk (env.tagRes t) [200] = true) →
      (epCreate label tags env).errors ≠ [] ∧
      (epCreate label tags env).stateSet = true) ∧
    (∀ pre t post, tags = pre ++ t :: post →
      (∀ u ∈ pre, callOk (env.tagRes u) [200] = true) →
      callOk (env.tagRes t) [200] = false →
      (label = "" ∨ ∃ m, env.labelRes = .status m) →
      (epCreate label tags env).errors ≠ [] ∧
      (epCreate label tags env).stateSet = false) := by
  rcases hcr : env.createRes with e | n
  · rw [hcr] at hcore
    simp [callOk] at hcore
  · rw [hcr] at hcore
    have hn : n = 200 := by simpa [callOk] using hcore
    subst hn
    refine ⟨?_, ?_, ?_⟩
    · by_cases hlab : label = ""
      · simp only [epCreate, hcr, if_pos rfl, if_pos hlab]
        exact epCreateTags_no_archive tags env _ _ (by decide)
      · rcases hlr : env.labelRes with e | m
        · simp only [epCreate, hcr, if_pos rfl, if_neg hlab, hlr]
          decide
        · by_cases hm : m = 200
          · subst hm
            simp only [epCreate, hcr, if_pos rfl, if_neg hlab, hlr, if_pos rfl]
            exact epCreateTags_no_archive tags env _ _ (by decide)
          · simp only [epCreate, hcr, if_pos rfl, if_neg hlab, hlr, if_neg hm]
            exact epCreateTags_no_archive tags env _ _ (by decide)
    · intro m hlab hlr hm htags
      simp only [epCreate, hcr, if_pos rfl, if_neg hlab, hlr, if_neg hm]
      unfold epCreateTags
      rw [epCreateTagLoop_ok env.tagRes tags htags]
      exact ⟨by simp, rfl⟩
    · rintro pre t post htags hpre ht (hlab | ⟨m, hlr⟩)
      · simp only [epCreate, hcr, if_pos rfl, if_pos hlab]
        unfold epCreateTags
        subst htags
        rw [epCreateTagLoop_fail env.tagRes pre t post hpre ht]
        exact ⟨by simp, rfl⟩
      · by_cases hlab : label = ""
        · simp only [epCreate, hcr, if_pos rfl, if_pos hlab]
          unfold epCreateTags
          subst htags
          rw [epCreateTagLoop_fail env.tagRes pre t post hpre ht]
          exact ⟨by simp, rfl⟩
        · by_cases hm : m = 200
          · subst hm
            simp only [epCreate, hcr, if_pos rfl, if_neg hlab, hlr, if_pos rfl]
            unfold epCreateTags
            subst htags
            rw [epCreateTagLoop_fail env.tagRes pre t post hpre ht]
            exact ⟨by simp, rfl⟩
          · simp only [epCreate, hcr, if_pos rfl, if_neg hlab, hlr, if_neg hm]
            unfold epCreateTags
            subst htags
            rw [epCreateTagLoop_fail env.tagRes pre t post hpre ht]
            exact ⟨by simp, rfl⟩

/-- Witness for the amended C10 at a concrete run: label patch returns 500,
both declared tags succeed — the error is reported, state is still committed.
-/
theorem endpoint_create_partial_failure_witness :
    (epCreate "lbl" ["a"]
      ⟨.status 200, .status 500, fun _ => .status 200⟩).errors ≠ [] ∧
    (epCreate "lbl" ["a"]
      ⟨.status 200, .status 500, fun _ => .status 200⟩).stateSet = true :=
  (endpoint_create_partial_failure "lbl" ["a"]
    ⟨.status 200, .status 500, fun _ => .status 200⟩ rfl).2.1 500
    (by decide) rfl (by decide) (fun t _ => rfl)

/-- Go's float-to-int conversion is the identity on integer-valued wire
numbers (the lossless half of the coercion). -/
theorem goTrunc_intCast (n : ℤ) : goTrunc ((n : ℚ)) = n := by
  unfold goTrunc
  by_cases h : (0 : ℚ) ≤ (n : ℚ)
  · rw [if_pos h]
    exact Int.floor_intCast n
  · rw [if_neg h]
    exact Int.ceil_intCast n

/-- C8 counterexample: decoding a destination-attribute map whose max_retry
arrives as the fractional wire number 5/2 succeeds with the silently
truncated value 2 — it does not fail as the claim requires. -/
theorem decode_fractional_truncates_silently :
    updateDestinationAttributesFromAPI
        [("max_retry", ApiValue.num (5 / 2))] =
      .ok { max_retry := some 2 } := by
  have h : goTrunc (5 / 2) = 2 := by
    unfold goTrunc
    rw [if_pos (by norm_num)]
    norm_num
  simp [updateDestinationAttributesFromAPI, apiDecodeAttrs, decodeStep,
    setIntAttr, h]

/-- C8 (amended): the decoder coerces every numeric wire value to Int64 with
Go's `int64(val)` — truncation toward zero — succeeding even on fractional
values (no rejection); on integer-valued wire numbers the coercion is exact.
-/
theorem decode_numeric_truncation (q : ℚ) :
    updateDestinationAttributesFromAPI [("max_retry", ApiValue.num q)] =
      .ok { max_retry := some (goTrunc q) } ∧
    (∀ n : ℤ, goTrunc ((n : ℚ)) = n) :=
  ⟨by simp [updateDestinationAttributesFromAPI, apiDecodeAttrs, decodeStep,
      setIntAttr], goTrunc_intCast⟩

/-- Round trip of the attribute codec: encode the internal object to the
typed wire union, then decode the wire key/value map back. -/
def codecRoundTrip (d : String) (o : DestObj) : Except String DestObj :=
  match encodeDest d o with
  | .error e => .error e
  | .ok u => updateDestinationAttributesFromAPI (wireOf u)

/-- A schema-valid webhook field set whose security_token is unset. -/
def webhookExample : DestObj :=
  { url := some "https://example.com", compression := some "none",
    headers := some [], max_retry := some 3, retry_interval_sec := some 1,
    post_timeout_sec := some 5 }

/-- C4 counterexample: the round trip is not the identity on the valid
webhook field set `webhookExample` — the encoder hardcodes
`SecurityToken: ""`, so the decoded object carries security_token = "" where
the original had it unset. -/
theorem codec_roundtrip_not_identity :
    codecRoundTrip "webhook" webhookExample ≠ .ok webhookExample := by
  intro hcontra
  have hcomp : codecRoundTrip "webhook" webhookExample =
      .ok { webhookExample with security_token := some "" } := by
    simp only [codecRoundTrip, encodeDest, encodeMap, webhookExample,
      convertDestinationAttributes, getWebhookAttributes, asString, asInt,
      asMap, lookupGo, wireOf, wireOfWebhook, goFloat32OfInt,
      updateDestinationAttributesFromAPI, apiDecodeAttrs, decodeStep,
      setStrAttr, setIntAttr, emptyNormalizedKeys, goTrunc_intCast]
    rfl
  rw [hcomp] at hcontra
  simp [webhookExample] at hcontra

/-- Decoding undoes the encoder's int-to-float32 conversion exactly. -/
theorem goTrunc_goFloat32 (n : ℤ) : goTrunc (goFloat32OfInt n) = n :=
  goTrunc_intCast n

/-- Webhook field set shape that survives the round trip: the six encoded
attributes populated, security_token pinned to "", everything else unset. -/
def mkWebhookObj (u c : String) (hs : List (String × String))
    (mr ri pt : Int) : DestObj :=
  { url := some u, compression := some c, headers := some hs,
    max_retry := some mr, retry_interval_sec := some ri,
    post_timeout_sec := some pt, security_token := some "" }

/-- S3 field set shape that survives the round trip. -/
def mkS3Obj (ep ak sk bk op fc ft : String) (mr ri : Int) (ssl : Bool) :
    DestObj :=
  { endpoint := some ep, access_key := some ak, secret_key := some sk,
    bucket := some bk, object_prefix := some op, file_compression := some fc,
    file_type := some ft, max_retry := some mr, retry_interval_sec := some ri,
    use_ssl := some ssl }

/-- Postgres field set shape that survives the round trip. -/
def mkPostgresObj (un pw ho : String) (po : Int) (db ak sm tn : String)
    (mr ri : Int) : DestObj :=
  { username := some un, password := some pw, host := some ho,
    port := some po, database := some db, access_key := some ak,
    sslmode := some sm, table_name := some tn, max_retry := some mr,
    retry_interval_sec := some ri }

/-- C4 (amended): the codec round trip is the identity on each supported
discriminant for valid field sets of the shape the decoder can reproduce:
all attributes outside the variant's encoded set unset, numeric fields in
their validator ranges (where float32 conversion is exact), strings that the
decoder normalizes from "" to unset non-empty, and — for webhook — the
security_token equal to "" (the encoder discards any other value, see the
counterexample). -/
theorem codec_roundtrip_amended :
    (∀ (u c : String) (hs : List (String × String)) (mr ri pt : Int),
      int64RangeValid 0 100 mr → int64RangeValid 1 3600 ri →
      int64RangeValid 1 3600 pt →
      codecRoundTrip "webhook" (mkWebhookObj u c hs mr ri pt) =
        .ok (mkWebhookObj u c hs mr ri pt)) ∧
    (∀ (ep ak sk bk op fc ft : String) (mr ri : Int) (ssl : Bool),
      ak ≠ "" → sk ≠ "" → bk ≠ "" → fc ≠ "" →
      int64RangeValid 0 100 mr → int64RangeValid 1 3600 ri →
      codecRoundTrip "s3" (mkS3Obj ep ak sk bk op fc ft mr ri ssl) =
        .ok (mkS3Obj ep ak sk bk op fc ft mr ri ssl)) ∧
    (∀ (un pw ho : String) (po : Int) (db ak sm tn : String) (mr ri : Int),
      ak ≠ "" → sm ≠ "" → int64RangeValid 1 65535 po →
      int64RangeValid 0 100 mr → int64RangeValid 1 3600 ri →
      codecRoundTrip "postgres" (mkPostgresObj un pw ho po db ak sm tn mr ri) =
        .ok (mkPostgresObj un pw ho po db ak sm tn mr ri)) := by
  refine ⟨fun u c hs mr ri pt _ _ _ => ?_,
    fun ep ak sk bk op fc ft mr ri ssl hak hsk hbk hfc _ _ => ?_,
    fun un pw ho po db ak sm tn mr ri hak hsm _ _ _ => ?_⟩
  · simp [codecRoundTrip, encodeDest, encodeMap, mkWebhookObj,
      convertDestinationAttributes, getWebhookAttributes, asString, asInt,
      asMap, lookupGo, wireOf, wireOfWebhook,
      updateDestinationAttributesFromAPI, apiDecodeAttrs, decodeStep,
      setStrAttr, setIntAttr, emptyNormalizedKeys, goTrunc_goFloat32,
      Except.map, bind, Except.bind, pure, Except.pure]
  · simp [codecRoundTrip, encodeDest, encodeMap, mkS3Obj,
      convertDestinationAttributes, getS3Attributes, asString, asInt, asBool,
      lookupGo, wireOf, wireOfS3, updateDestinationAttributesFromAPI,
      apiDecodeAttrs, decodeStep, setStrAttr, setIntAttr,
      emptyNormalizedKeys, goTrunc_goFloat32, hak, hsk, hbk, hfc,
      Except.map, bind, Except.bind, pure, Except.pure]
  · simp [codecRoundTrip, encodeDest, encodeMap, mkPostgresObj,
      convertDestinationAttributes, getPostgresAttributes, asString, asInt,
      lookupGo, wireOf, wireOfPostgres, updateDestinationAttributesFromAPI,
      apiDecodeAttrs, decodeStep, setStrAttr, setIntAttr,
      emptyNormalizedKeys, goTrunc_goFloat32, hak, hsm,
      Except.map, bind, Except.bind, pure, Except.pure]

/-- Witness for the amended C4 at concrete valid field sets of all three
discriminants. -/
theorem codec_roundtrip_amended_witness :
    codecRoundTrip "webhook" (mkWebhookObj "https://example.com" "none" [] 3 1 5) =
      .ok (mkWebhookObj "https://example.com" "none" [] 3 1 5) ∧
    codecRoundTrip "s3"
        (mkS3Obj "https://s3.example.com" "AK" "SK" "bkt" "p" "none" ".json"
          3 1 true) =
      .ok (mkS3Obj "https://s3.example.com" "AK" "SK" "bkt" "p" "none" ".json"
          3 1 true) ∧
    codecRoundTrip "postgres"
        (mkPostgresObj "user" "pw" "db.example.com" 5432 "db" "AK" "require"
          "t" 3 1) =
      .ok (mkPostgresObj "user" "pw" "db.example.com" 5432 "db" "AK" "require"
          "t" 3 1) :=
  ⟨codec_roundtrip_amended.1 "https://example.com" "none" [] 3 1 5
      (by constructor <;> norm_num) (by constructor <;> norm_num)
      (by constructor <;> norm_num),
   codec_roundtrip_amended.2.1 "https://s3.example.com" "AK" "SK" "bkt" "p"
      "none" ".json" 3 1 true (by decide) (by decide) (by decide) (by decide)
      (by constructor <;> norm_num) (by constructor <;> norm_num),
   codec_roundtrip_amended.2.2 "user" "pw" "db.example.com" 5432 "db" "AK"
      "require" "t" 3 1 (by decide) (by decide) (by constructor <;> norm_num)
      (by constructor <;> norm_num) (by constructor <;> norm_num)⟩

/-!
Required-field validation of the encoder (C5): per-variant required fields,
their expected Go types, and the field-named error raised when one is absent.
-/

/-- Go kinds of the destination-attribute values. -/
inductive GoKind where
  | kstr
  | kint
  | kbool
  | kmap
deriving DecidableEq, Repr

/-- Expected Go kind of each schema attribute (the type each getter asserts).
-/
def fieldKind (f : String) : GoKind :=
  if f = "max_retry" ∨ f = "retry_interval_sec" ∨ f = "post_timeout_sec" ∨
      f = "port" then .kint
  else if f = "use_ssl" then .kbool
  else if f = "headers" then .kmap
  else .kstr

/-- Does a Go value have the given kind? -/
def hasKind : GoValue → GoKind → Bool
  | .str _, .kstr => true
  | .int _, .kint => true
  | .bool _, .kbool => true
  | .map _, .kmap => true
  | _, _ => false

/-- The map holds a value of the expected kind at attribute `g`. -/
def typedOkB (m : List (String × GoValue)) (g : String) : Bool :=
  match lookupGo m g with
  | some v => hasKind v (fieldKind g)
  | none => false

/-- Fields each getter asserts, in the order the source asserts them
(stream_resource.go 363-398, 401-455, 458-512). -/
def requiredFields (d : String) : List String :=
  if d = "webhook" then
    ["url", "compression", "headers", "max_retry", "post_timeout_sec",
     "retry_interval_sec"]
  else if d = "s3" then
    ["endpoint", "access_key", "secret_key", "bucket", "object_prefix",
     "file_compression", "file_type", "max_retry", "retry_interval_sec",
     "use_ssl"]
  else if d = "postgres" then
    ["username", "password", "host", "port", "database", "access_key",
     "sslmode", "table_name", "max_retry", "retry_interval_sec"]
  else []

/-- A missing key makes the string assertion fail with the field-named error.
-/
theorem asString_none (m : List (String × GoValue)) (f : String)
    (h : lookupGo m f = none) :
    asString f m = .error (f ++ " must be a string") := by
  simp [asString, h]

/-- A missing key makes the integer assertion fail with the field-named
error. -/
theorem asInt_none (m : List (String × GoValue)) (f : String)
    (h : lookupGo m f = none) :
    asInt f m = .error (f ++ " must be an integer") := by
  simp [asInt, h]

/-- A missing key makes the boolean assertion fail with the field-named
error. -/
theorem asBool_none (m : List (String × GoValue)) (f : String)
    (h : lookupGo m f = none) :
    asBool f m = .error (f ++ " must be a boolean") := by
  simp [asBool, h]

/-- A missing key makes the map assertion fail with the field-named error. -/
theorem asMap_none (m : List (String × GoValue)) (f : String)
    (h : lookupGo m f = none) :
    asMap f m = .error (f ++ " must be a map") := by
  simp [asMap, h]

/-- A well-typed string attribute passes the string assertion. -/
theorem typedOkB_asString (m : List (String × GoValue)) (g : String)
    (h : typedOkB m g = true) (hk : fieldKind g = GoKind.kstr) :
    ∃ s, asString g m = .ok s := by
  unfold typedOkB at h
  cases hl : lookupGo m g with
  | none => rw [hl] at h; exact absurd h (by simp)
  | some v =>
    rw [hl, hk] at h
    cases v with
    | str s => exact ⟨s, by simp [asString, hl]⟩
    | int n => simp [hasKind] at h
    | bool b => simp [hasKind] at h
    | map mm => simp [hasKind] at h

/-- A well-typed integer attribute passes the integer assertion. -/
theorem typedOkB_asInt (m : List (String × GoValue)) (g : String)
    (h : typedOkB m g = true) (hk : fieldKind g = GoKind.kint) :
    ∃ n, asInt g m = .ok n := by
  unfold typedOkB at h
  cases hl : lookupGo m g with
  | none => rw [hl] at h; exact absurd h (by simp)
  | some v =>
    rw [hl, hk] at h
    cases v with
    | int n => exact ⟨n, by simp [asInt, hl]⟩
    | str s => simp [hasKind] at h
    | bool b => simp [hasKind] at h
    | map mm => simp [hasKind] at h

/-- A well-typed boolean attribute passes the boolean assertion. -/
theorem typedOkB_asBool (m : List (String × GoValue)) (g : String)
    (h : typedOkB m g = true) (hk : fieldKind g = GoKind.kbool) :
    ∃ b, asBool g m = .ok b := by
  unfold typedOkB at h
  cases hl : lookupGo m g with
  | none => rw [hl] at h; exact absurd h (by simp)
  | some v =>
    rw [hl, hk] at h
    cases v with
    | bool b => exact ⟨b, by simp [asBool, hl]⟩
    | str s => simp [hasKind] at h
    | int n => simp [hasKind] at h
    | map mm => simp [hasKind] at h

/-- A well-typed map attribute passes the map assertion. -/
theorem typedOkB_asMap (m : List (String × GoValue)) (g : String)
    (h : typedOkB m g = true) (hk : fieldKind g = GoKind.kmap) :
    ∃ hs, asMap g m = .ok hs := by
  unfold typedOkB at h
  cases hl : lookupGo m g with
  | none => rw [hl] at h; exact absurd h (by simp)
  | some v =>
    rw [hl, hk] at h
    cases v with
    | map mm => exact ⟨mm, by simp [asMap, hl]⟩
    | str s => simp [hasKind] at h
    | int n => simp [hasKind] at h
    | bool b => simp [hasKind] at h

/-- C5: for every supported discriminant, if one required field of the
selected variant is absent from the attribute map while the remaining
required fields are present with their expected types, encoding fails and
the error message names the missing field (it begins with the field name).
-/
theorem encode_missing_required_field_fails (d : String)
    (m : List (String × GoValue)) (f : String) (hf : f ∈ requiredFields d)
    (hmiss : lookupGo m f = none)
    (hrest : ∀ g ∈ requiredFields d, g ≠ f → typedOkB m g = true) :
    ∃ msg, encodeMap d m = .error (f ++ msg) := by
  by_cases hd1 : d = "webhook"
  · subst hd1
    simp [requiredFields] at hf
    rcases hf with rfl | rfl | rfl | rfl | rfl | rfl
    · refine ⟨" must be a string", ?_⟩
      simp [encodeMap, getWebhookAttributes, asString_none m "url" hmiss, Except.map, bind, Except.bind]
    · obtain ⟨x0, h0⟩ := typedOkB_asString m "url"
        (hrest "url" (by decide) (by decide)) (by decide)
      refine ⟨" must be a string", ?_⟩
      simp [encodeMap, getWebhookAttributes, h0, asString_none m "compression" hmiss, Except.map, bind, Except.bind]
    · obtain ⟨x0, h0⟩ := typedOkB_asString m "url"
        (hrest "url" (by decide) (by decide)) (by decide)
      obtain ⟨x1, h1⟩ := typedOkB_asString m "compression"
        (hrest "compression" (by decide) (by decide)) (by decide)
      refine ⟨" must be a map", ?_⟩
      simp [encodeMap, getWebhookAttributes, h0, h1, asMap_none m "headers" hmiss, Except.map, bind, Except.bind]
    · obtain ⟨x0, h0⟩ := typedOkB_asString m "url"
        (hrest "url" (by decide) (by decide)) (by decide)
      obtain ⟨x1, h1⟩ := typedOkB_asString m "compression"
        (hrest "compression" (by decide) (by decide)) (by decide)
      obtain ⟨x2, h2⟩ := typedOkB_asMap m "headers"
        (hrest "headers" (by decide) (by decide)) (by decide)
      refine ⟨" must be an integer", ?_⟩
      simp [encodeMap, getWebhookAttributes, h0, h1, h2, asInt_none m "max_retry" hmiss, Except.map, bind, Except.bind]
    · obtain ⟨x0, h0⟩ := typedOkB_asString m "url"
        (hrest "url" (by decide) (by decide)) (by decide)
      obtain ⟨x1, h1⟩ := typedOkB_asString m "compression"
        (hrest "compression" (by decide) (by decide)) (by decide)
      obtain ⟨x2, h2⟩ := typedOkB_asMap m "headers"
        (hrest "headers" (by decide) (by decide)) (by decide)
      obtain ⟨x3, h3⟩ := typedOkB_asInt m "max_retry"
        (hrest "max_retry" (by decide) (by decide)) (by decide)
      refine ⟨" must be an integer", ?_⟩
      simp [encodeMap, getWebhookAttributes, h0, h1, h2, h3, asInt_none m "post_timeout_sec" hmiss, Except.map, bind, Except.bind]
    · obtain ⟨x0, h0⟩ := typedOkB_asString m "url"
        (hrest "url" (by decide) (by decide)) (by decide)
      obtain ⟨x1, h1⟩ := typedOkB_asString m "compression"
        (hrest "compression" (by decide) (by decide)) (by decide)
      obtain ⟨x2, h2⟩ := typedOkB_asMap m "headers"
        (hrest "headers" (by decide) (by decide)) (by decide)
      obtain ⟨x3, h3⟩ := typedOkB_asInt m "max_retry"
        (hrest "max_retry" (by decide) (by decide)) (by decide)
      obtain ⟨x4, h4⟩ := typedOkB_asInt m "post_timeout_sec"
        (hrest "post_timeout_sec" (by decide) (by decide)) (by decide)
      refine ⟨" must be an integer", ?_⟩
      simp [encodeMap, getWebhookAttributes, h0, h1, h2, h3, h4, asInt_none m "retry_interval_sec" hmiss, Except.map, bind, Except.bind]
  by_cases hd2 : d = "s3"
  · subst hd2
    simp [requiredFields] at hf
    rcases hf with rfl | rfl | rfl | rfl | rfl | rfl | rfl | rfl | rfl | rfl
    · refine ⟨" must be a string", ?_⟩
      simp [encodeMap, getS3Attributes, asString_none m "endpoint" hmiss, Except.map, bind, Except.bind]
    · obtain ⟨x0, h0⟩ := typedOkB_asString m "endpoint"
        (hrest "endpoint" (by decide) (by decide)) (by decide)
      refine ⟨" must be a string", ?_⟩
      simp [encodeMap, getS3Attributes, h0, asString_none m "access_key" hmiss, Except.map, bind, Except.bind]
    · obtain ⟨x0, h0⟩ := typedOkB_asString m "endpoint"
        (hrest "endpoint" (by decide) (by decide)) (by decide)
      obtain ⟨x1, h1⟩ := typedOkB_asString m "access_key"
        (hrest "access_key" (by decide) (by decide)) (by decide)
      refine ⟨" must be a string", ?_⟩
      simp [encodeMap, getS3Attributes, h0, h1, asString_none m "secret_key" hmiss, Except.map, bind, Except.bind]
    · obtain ⟨x0, h0⟩ := typedOkB_asString m "endpoint"
        (hrest "endpoint" (by decide) (by decide)) (by decide)
      obtain ⟨x1, h1⟩ := typedOkB_asString m "access_key"
        (hrest "access_key" (by decide) (by decide)) (by decide)
      obtain ⟨x2, h2⟩ := typedOkB_asString m "secret_key"
        (hrest "secret_key" (by decide) (by decide)) (by decide)
      refine ⟨" must be a string", ?_⟩
      simp [encodeMap, getS3Attributes, h0, h1, h2, asString_none m "bucket" hmiss, Except.map, bind, Except.bind]
    · obtain ⟨x0, h0⟩ := typedOkB_asString m "endpoint"
        (hrest "endpoint" (by decide) (by decide)) (by decide)
      obtain ⟨x1, h1⟩ := typedOkB_asString m "access_key"
        (hrest "access_key" (by decide) (by decide)) (by decide)
      obtain ⟨x2, h2⟩ := typedOkB_asString m "secret_key"
        (hrest "secret_key" (by decide) (by decide)) (by decide)
      obtain ⟨x3, h3⟩ := typedOkB_asString m "bucket"
        (hrest "bucket" (by decide) (by decide)) (by decide)
      refine ⟨" must be a string", ?_⟩
      simp [encodeMap, getS3Attributes, h0, h1, h2, h3, asString_none m "object_prefix" hmiss, Except.map, bind, Except.bind]
    · obtain ⟨x0, h0⟩ := typedOkB_asString m "endpoint"
        (hrest "endpoint" (by decide) (by decide)) (by decide)
      obtain ⟨x1, h1⟩ := typedOkB_asString m "access_key"
        (hrest "access_key" (by decide) (by decide)) (by decide)
      obtain ⟨x2, h2⟩ := typedOkB_asString m "secret_key"
        (hrest "secret_key" (by decide) (by decide)) (by decide)
      obtain ⟨x3, h3⟩ := typedOkB_asString m "bucket"
        (hrest "bucket" (by decide) (by decide)) (by decide)
      obtain ⟨x4, h4⟩ := typedOkB_asString m "object_prefix"
        (hrest "object_prefix" (by decide) (by decide)) (by decide)
      refine ⟨" must be a string", ?_⟩
      simp [encodeMap, getS3Attributes, h0, h1, h2, h3, h4, asString_none m "file_compression" hmiss, Except.map, bind, Except.bind]
    · obtain ⟨x0, h0⟩ := typedOkB_asString m "endpoint"
        (hrest "endpoint" (by decide) (by decide)) (by decide)
      obtain ⟨x1, h1⟩ := typedOkB_asString m "access_key"
        (hrest "access_key" (by decide) (by decide)) (by decide)
      obtain ⟨x2, h2⟩ := typedOkB_asString m "secret_key"
        (hrest "secret_key" (by decide) (by decide)) (by decide)
      obtain ⟨x3, h3⟩ := typedOkB_asString m "bucket"
        (hrest "bucket" (by decide) (by decide)) (by decide)
      obtain ⟨x4, h4⟩ := typedOkB_asString m "object_prefix"
        (hrest "object_prefix" (by decide) (by decide)) (by decide)
      obtain ⟨x5, h5⟩ := typedOkB_asString m "file_compression"
        (hrest "file_compression" (by decide) (by decide)) (by decide)
      refine ⟨" must be a string", ?_⟩
      simp [encodeMap, getS3Attributes, h0, h1, h2, h3, h4, h5, asString_none m "file_type" hmiss, Except.map, bind, Except.bind]
    · obtain ⟨x0, h0⟩ := typedOkB_asString m "endpoint"
        (hrest "endpoint" (by decide) (by decide)) (by decide)
      obtain ⟨x1, h1⟩ := typedOkB_asString m "access_key"
        (hrest "access_key" (by decide) (by decide)) (by decide)
      obtain ⟨x2, h2⟩ := typedOkB_asString m "secret_key"
        (hrest "secret_key" (by decide) (by decide)) (by decide)
      obtain ⟨x3, h3⟩ := typedOkB_asString m "bucket"
        (hrest "bucket" (by decide) (by decide)) (by decide)
      obtain ⟨x4, h4⟩ := typedOkB_asString m "object_prefix"
        (hrest "object_prefix" (by decide) (by decide)) (by decide)
      obtain ⟨x5, h5⟩ := typedOkB_asString m "file_compression"
        (hrest "file_compression" (by decide) (by decide)) (by decide)
      obtain ⟨x6, h6⟩ := typedOkB_asString m "file_type"
        (hrest "file_type" (by decide) (by decide)) (by decide)
      refine ⟨" must be an integer", ?_⟩
      simp [encodeMap, getS3Attributes, h0, h1, h2, h3, h4, h5, h6, asInt_none m "max_retry" hmiss, Except.map, bind, Except.bind]
    · obtain ⟨x0, h0⟩ := typedOkB_asString m "endpoint"
        (hrest "endpoint" (by decide) (by decide)) (by decide)
      obtain ⟨x1, h1⟩ := typedOkB_asString m "access_key"
        (hrest "access_key" (by decide) (by decide)) (by decide)
      obtain ⟨x2, h2⟩ := typedOkB_asString m "secret_key"
        (hrest "secret_key" (by decide) (by decide)) (by decide)
      obtain ⟨x3, h3⟩ := typedOkB_asString m "bucket"
        (hrest "bucket" (by decide) (by decide)) (by decide)
      obtain ⟨x4, h4⟩ := typedOkB_asString m "object_prefix"
        (hrest "object_prefix" (by decide) (by decide)) (by decide)
      obtain ⟨x5, h5⟩ := typedOkB_asString m "file_compression"
        (hrest "file_compression" (by decide) (by decide)) (by decide)
      obtain ⟨x6, h6⟩ := typedOkB_asString m "file_type"
        (hrest "file_type" (by decide) (by decide)) (by decide)
      obtain ⟨x7, h7⟩ := typedOkB_asInt m "max_retry"
        (hrest "max_retry" (by decide) (by decide)) (by decide)
      refine ⟨" must be an integer", ?_⟩
      simp [encodeMap, getS3Attributes, h0, h1, h2, h3, h4, h5, h6, h7, asInt_none m "retry_interval_sec" hmiss, Except.map, bind, Except.bind]
    · obtain ⟨x0, h0⟩ := typedOkB_asString m "endpoint"
        (hrest "endpoint" (by decide) (by decide)) (by decide)
      obtain ⟨x1, h1⟩ := typedOkB_asString m "access_key"
        (hrest "access_key" (by decide) (by decide)) (by decide)
      obtain ⟨x2, h2⟩ := typedOkB_asString m "secret_key"
        (hrest "secret_key" (by decide) (by decide)) (by decide)
      obtain ⟨x3, h3⟩ := typedOkB_asString m "bucket"
        (hrest "bucket" (by decide) (by decide)) (by decide)
      obtain ⟨x4, h4⟩ := typedOkB_asString m "object_prefix"
        (hrest "object_prefix" (by decide) (by decide)) (by decide)
      obtain ⟨x5, h5⟩ := typedOkB_asString m "file_compression"
        (hrest "file_compression" (by decide) (by decide)) (by decide)
      obtain ⟨x6, h6⟩ := typedOkB_asString m "file_type"
        (hrest "file_type" (by decide) (by decide)) (by decide)
      obtain ⟨x7, h7⟩ := typedOkB_asInt m "max_retry"
        (hrest "max_retry" (by decide) (by decide)) (by decide)
      obtain ⟨x8, h8⟩ := typedOkB_asInt m "retry_interval_sec"
        (hrest "retry_interval_sec" (by decide) (by decide)) (by decide)
      refine ⟨" must be a boolean", ?_⟩
      simp [encodeMap, getS3Attributes, h0, h1, h2, h3, h4, h5, h6, h7, h8, asBool_none m "use_ssl" hmiss, Except.map, bind, Except.bind]
  by_cases hd3 : d = "postgres"
  · subst hd3
    simp [requiredFields] at hf
    rcases hf with rfl | rfl | rfl | rfl | rfl | rfl | rfl | rfl | rfl | rfl
    · refine ⟨" must be a string", ?_⟩
      simp [encodeMap, getPostgresAttributes, asString_none m "username" hmiss, Except.map, bind, Except.bind]
    · obtain ⟨x0, h0⟩ := typedOkB_asString m "username"
        (hrest "username" (by decide) (by decide)) (by decide)
      refine ⟨" must be a string", ?_⟩
      simp [encodeMap, getPostgresAttributes, h0, asString_none m "password" hmiss, Except.map, bind, Except.bind]
    · obtain ⟨x0, h0⟩ := typedOkB_asString m "username"
        (hrest "username" (by decide) (by decide)) (by decide)
      obtain ⟨x1, h1⟩ := typedOkB_asString m "password"
        (hrest "password" (by decide) (by decide)) (by decide)
      refine ⟨" must be a string", ?_⟩
      simp [encodeMap, getPostgresAttributes, h0, h1, asString_none m "host" hmiss, Except.map, bind, Except.bind]
    · obtain ⟨x0, h0⟩ := typedOkB_asString m "username"
        (hrest "username" (by decide) (by decide)) (by decide)
      obtain ⟨x1, h1⟩ := typedOkB_asString m "password"
        (hrest "password" (by decide) (by decide)) (by decide)
      obtain ⟨x2, h2⟩ := typedOkB_asString m "host"
        (hrest "host" (by decide) (by decide)) (by decide)
      refine ⟨" must be an integer", ?_⟩
      simp [encodeMap, getPostgresAttributes, h0, h1, h2, asInt_none m "port" hmiss, Except.map, bind, Except.bind]
    · obtain ⟨x0, h0⟩ := typedOkB_asString m "username"
        (hrest "username" (by decide) (by decide)) (by decide)
      obtain ⟨x1, h1⟩ := typedOkB_asString m "password"
        (hrest "password" (by decide) (by decide)) (by decide)
      obtain ⟨x2, h2⟩ := typedOkB_asString m "host"
        (hrest "host" (by decide) (by decide)) (by decide)
      obtain ⟨x3, h3⟩ := typedOkB_asInt m "port"
        (hrest "port" (by decide) (by decide)) (by decide)
      refine ⟨" must be a string", ?_⟩
      simp [encodeMap, getPostgresAttributes, h0, h1, h2, h3, asString_none m "database" hmiss, Except.map, bind, Except.bind]
    · obtain ⟨x0, h0⟩ := typedOkB_asString m "username"
        (hrest "username" (by decide) (by decide)) (by decide)
      obtain ⟨x1, h1⟩ := typedOkB_asString m "password"
        (hrest "password" (by decide) (by decide)) (by decide)
      obtain ⟨x2, h2⟩ := typedOkB_asString m "host"
        (hrest "host" (by decide) (by decide)) (by decide)
      obtain ⟨x3, h3⟩ := typedOkB_asInt m "port"
        (hrest "port" (by decide) (by decide)) (by decide)
      obtain ⟨x4, h4⟩ := typedOkB_asString m "database"
        (hrest "database" (by decide) (by decide)) (by decide)
      refine ⟨" must be a string", ?_⟩
      simp [encodeMap, getPostgresAttributes, h0, h1, h2, h3, h4, asString_none m "access_key" hmiss, Except.map, bind, Except.bind]
    · obtain ⟨x0, h0⟩ := typedOkB_asString m "username"
        (hrest "username" (by decide) (by decide)) (by decide)
      obtain ⟨x1, h1⟩ := typedOkB_asString m "password"
        (hrest "password" (by decide) (by decide)) (by decide)
      obtain ⟨x2, h2⟩ := typedOkB_asString m "host"
        (hrest "host" (by decide) (by decide)) (by decide)
      obtain ⟨x3, h3⟩ := typedOkB_asInt m "port"
        (hrest "port" (by decide) (by decide)) (by decide)
      obtain ⟨x4, h4⟩ := typedOkB_asString m "database"
        (hrest "database" (by decide) (by decide)) (by decide)
      obtain ⟨x5, h5⟩ := typedOkB_asString m "access_key"
        (hrest "access_key" (by decide) (by decide)) (by decide)
      refine ⟨" must be a string", ?_⟩
      simp [encodeMap, getPostgresAttributes, h0, h1, h2, h3, h4, h5, asString_none m "sslmode" hmiss, Except.map, bind, Except.bind]
    · obtain ⟨x0, h0⟩ := typedOkB_asString m "username"
        (hrest "username" (by decide) (by decide)) (by decide)
      obtain ⟨x1, h1⟩ := typedOkB_asString m "password"
        (hrest "password" (by decide) (by decide)) (by decide)
      obtain ⟨x2, h2⟩ := typedOkB_asString m "host"
        (hrest "host" (by decide) (by decide)) (by decide)
      obtain ⟨x3, h3⟩ := typedOkB_asInt m "port"
        (hrest "port" (by decide) (by decide)) (by decide)
      obtain ⟨x4, h4⟩ := typedOkB_asString m "database"
        (hrest "database" (by decide) (by decide)) (by decide)
      obtain ⟨x5, h5⟩ := typedOkB_asString m "access_key"
        (hrest "access_key" (by decide) (by decide)) (by decide)
      obtain ⟨x6, h6⟩ := typedOkB_asString m "sslmode"
        (hrest "sslmode" (by decide) (by decide)) (by decide)
      refine ⟨" must be a string", ?_⟩
      simp [encodeMap, getPostgresAttributes, h0, h1, h2, h3, h4, h5, h6, asString_none m "table_name" hmiss, Except.map, bind, Except.bind]
    · obtain ⟨x0, h0⟩ := typedOkB_asString m "username"
        (hrest "username" (by decide) (by decide)) (by decide)
      obtain ⟨x1, h1⟩ := typedOkB_asString m "password"
        (hrest "password" (by decide) (by decide)) (by decide)
      obtain ⟨x2, h2⟩ := typedOkB_asString m "host"
        (hrest "host" (by decide) (by decide)) (by decide)
      obtain ⟨x3, h3⟩ := typedOkB_asInt m "port"
        (hrest "port" (by decide) (by decide)) (by decide)
      obtain ⟨x4, h4⟩ := typedOkB_asString m "database"
        (hrest "database" (by decide) (by decide)) (by decide)
      obtain ⟨x5, h5⟩ := typedOkB_asString m "access_key"
        (hrest "access_key" (by decide) (by decide)) (by decide)
      obtain ⟨x6, h6⟩ := typedOkB_asString m "sslmode"
        (hrest "sslmode" (by decide) (by decide)) (by decide)
      obtain ⟨x7, h7⟩ := typedOkB_asString m "table_name"
        (hrest "table_name" (by decide) (by decide)) (by decide)
      refine ⟨" must be an integer", ?_⟩
      simp [encodeMap, getPostgresAttributes, h0, h1, h2, h3, h4, h5, h6, h7, asInt_none m "max_retry" hmiss, Except.map, bind, Except.bind]
    · obtain ⟨x0, h0⟩ := typedOkB_asString m "username"
        (hrest "username" (by decide) (by decide)) (by decide)
      obtain ⟨x1, h1⟩ := typedOkB_asString m "password"
        (hrest "password" (by decide) (by decide)) (by decide)
      obtain ⟨x2, h2⟩ := typedOkB_asString m "host"
        (hrest "host" (by decide) (by decide)) (by decide)
      obtain ⟨x3, h3⟩ := typedOkB_asInt m "port"
        (hrest "port" (by decide) (by decide)) (by decide)
      obtain ⟨x4, h4⟩ := typedOkB_asString m "database"
        (hrest "database" (by decide) (by decide)) (by decide)
      obtain ⟨x5, h5⟩ := typedOkB_asString m "access_key"
        (hrest "access_key" (by decide) (by decide)) (by decide)
      obtain ⟨x6, h6⟩ := typedOkB_asString m "sslmode"
        (hrest "sslmode" (by decide) (by decide)) (by decide)
      obtain ⟨x7, h7⟩ := typedOkB_asString m "table_name"
        (hrest "table_name" (by decide) (by decide)) (by decide)
      obtain ⟨x8, h8⟩ := typedOkB_asInt m "max_retry"
        (hrest "max_retry" (by decide) (by decide)) (by decide)
      refine ⟨" must be an integer", ?_⟩
      simp [encodeMap, getPostgresAttributes, h0, h1, h2, h3, h4, h5, h6, h7, h8, asInt_none m "retry_interval_sec" hmiss, Except.map, bind, Except.bind]
  · simp [requiredFields, hd1, hd2, hd3] at hf

/-- Witness for C5: a webhook attribute map missing only "url" fails with an
error that names "url". -/
theorem encode_missing_required_field_fails_witness :
    ∃ msg, encodeMap "webhook"
        [("compression", GoValue.str "none"), ("headers", GoValue.map []),
         ("max_retry", GoValue.int 3), ("post_timeout_sec", GoValue.int 5),
         ("retry_interval_sec", GoValue.int 1)] = .error ("url" ++ msg) :=
  encode_missing_required_field_fails "webhook"
    [("compression", GoValue.str "none"), ("headers", GoValue.map []),
     ("max_retry", GoValue.int 3), ("post_timeout_sec", GoValue.int 5),
     ("retry_interval_sec", GoValue.int 1)] "url" (by decide) (by decide)
    (by decide)

/-- A trace whose scan from no-predecessor is gated stays gated from any
predecessor (its head is never a dispatch). -/
theorem gatedFrom_any_of_none (t : List HttpEv)
    (h : gatedFrom none t = true) (p : Option HttpEv) :
    gatedFrom p t = true := by
  cases t with
  | nil => rfl
  | cons e rest =>
    cases e with
    | acquire ok => simpa [gatedFrom] using h
    | dispatch => simp [gatedFrom] at h

/-- Dropping a head element preserves the optional last element of a
non-empty tail. -/
theorem getLast_cons_of_ne_nil (e : HttpEv) (xs : List HttpEv)
    (h : xs ≠ []) : (e :: xs).getLast? = xs.getLast? := by
  cases xs with
  | nil => exact absurd rfl h
  | cons a l => exact List.getLast?_cons_cons

/-- C6: with the retry policy that never retries limiter errors (as the
default policy treats context errors), every dispatch of the throttled
retrying client is immediately preceded by a successful token acquisition;
a failed acquisition on the first attempt aborts the whole call with the
limiter's error and no dispatch at all; and whenever the call returns a
limiter error, its last event is the failed acquisition — the underlying
transport is never invoked for an attempt whose acquisition failed. -/
theorem throttled_client_attempts_gated (env : ThrottleEnv)
    (policy : RTRes → Bool) (hpol : ∀ e, policy (.limErr e) = false) :
    ∀ fuel wn dn : Nat,
      dispatchGated (clientDo env policy fuel wn dn).1 = true ∧
      (∀ e, env.wait wn = some e →
        clientDo env policy fuel wn dn = ([.acquire false], .limErr e)) ∧
      (∀ e, (clientDo env policy fuel wn dn).2 = .limErr e →
        (clientDo env policy fuel wn dn).1.getLast? =
          some (.acquire false)) := by
  intro fuel
  induction fuel with
  | zero =>
    intro wn dn
    cases hw : env.wait wn with
    | some e =>
      refine ⟨?_, ?_, ?_⟩ <;>
        simp [clientDo, attemptOnce, throttledRoundTrip, hw, dispatchGated,
          gatedFrom]
    | none =>
      cases hi : env.inner dn with
      | error te =>
        refine ⟨?_, ?_, ?_⟩ <;>
          simp [clientDo, attemptOnce, throttledRoundTrip, hw, hi,
            dispatchGated, gatedFrom]
      | ok c =>
        refine ⟨?_, ?_, ?_⟩ <;>
          simp [clientDo, attemptOnce, throttledRoundTrip, hw, hi,
            dispatchGated, gatedFrom]
  | succ fuel ih =>
    intro wn dn
    cases hw : env.wait wn with
    | some e =>
      refine ⟨?_, ?_, ?_⟩ <;>
        simp [clientDo, attemptOnce, throttledRoundTrip, hw, hpol,
          dispatchGated, gatedFrom]
    | none =>
      have hres : (attemptOnce env wn dn).2 =
          match env.inner dn with
          | .error te => .transErr te
          | .ok c => .resp c := by
        simp [attemptOnce, throttledRoundTrip, hw]
      by_cases hp : policy (attemptOnce env wn dn).2 = true
      · rw [hres] at hp
        cases hw2 : env.wait (wn + 1) with
        | some e2 =>
          have hrun : clientDo env policy (fuel + 1) wn dn =
              ([.acquire true, .dispatch, .acquire false], .limErr e2) := by
            simp [clientDo, attemptOnce, throttledRoundTrip, hw, hp, hw2]
          refine ⟨?_, ?_, ?_⟩ <;> simp [hrun, dispatchGated, gatedFrom, hw]
        | none =>
          obtain ⟨ih1, ih2, ih3⟩ := ih (wn + 2) (dn + 1)
          have hrun : clientDo env policy (fuel + 1) wn dn =
              ([.acquire true, .dispatch, .acquire true] ++
                 (clientDo env policy fuel (wn + 2) (dn + 1)).1,
               (clientDo env policy fuel (wn + 2) (dn + 1)).2) := by
            simp [clientDo, attemptOnce, throttledRoundTrip, hw, hp, hw2]
          refine ⟨?_, ?_, ?_⟩
          · rw [hrun]
            simp only [List.cons_append, List.nil_append, dispatchGated,
              gatedFrom]
            simp only [dispatchGated] at ih1
            simp [gatedFrom_any_of_none _ ih1]
          · intro e' he'
            exact Option.noConfusion he'
          · intro e' he'
            rw [hrun] at he' ⊢
            have htail := ih3 e' he'
            have hne : (clientDo env policy fuel (wn + 2) (dn + 1)).1 ≠ [] := by
              intro hnil
              rw [hnil] at htail
              exact Option.noConfusion htail
            simp only [List.cons_append, List.nil_append]
            rw [getLast_cons_of_ne_nil _ _ (List.cons_ne_nil _ _),
              getLast_cons_of_ne_nil _ _ (List.cons_ne_nil _ _),
              getLast_cons_of_ne_nil _ _ hne]
            exact htail
      · simp only [Bool.not_eq_true] at hp
        have hrun : clientDo env policy (fuel + 1) wn dn =
            attemptOnce env wn dn := by
          simp [clientDo, hp]
        cases hi : env.inner dn with
        | error te =>
          refine ⟨?_, ?_, ?_⟩ <;>
            simp [hrun, attemptOnce, throttledRoundTrip, hw, hi,
              dispatchGated, gatedFrom]
        | ok c =>
          refine ⟨?_, ?_, ?_⟩ <;>
            simp [hrun, attemptOnce, throttledRoundTrip, hw, hi,
              dispatchGated, gatedFrom]

/-- Witness for C6 at a concrete call: the limiter rejects the first
acquisition (cancelled context); the call returns that limiter error after
the single failed acquisition, dispatching nothing. -/
theorem throttled_client_attempts_gated_witness :
    clientDo
        ⟨fun _ => some "context canceled", fun _ => .ok 200⟩
        (fun r => match r with | .limErr _ => false | _ => true)
        3 0 0 =
      ([.acquire false], .limErr "context canceled") :=
  (throttled_client_attempts_gated
    ⟨fun _ => some "context canceled", fun _ => .ok 200⟩
    (fun r => match r with | .limErr _ => false | _ => true)
    (fun _ => rfl) 3 0 0).2.1 "context canceled" rfl
